import Mathlib

/-!
Verification of the MCP browser-tools synchronization and output-routing core.

This file gives a shallow embedding of the code under
`packages/playwright/src/mcp/browser/tools/` (the action-completion barrier
`waitForCompletion`, the navigation-error filter `isNavigationError`, the
file-name generator `dateAsFileName`, the snapshot routing predicate
`shouldSaveSnapshotToFile`, the network-request statistics of `network.ts`,
and the console-message handler), together with theorems settling the
specification claims about them.

Strings from the JavaScript source are embedded as `List Char`; JavaScript
`Set` objects as duplicate-free `List Nat`; the event-driven execution of
`waitForCompletion` as a deterministic interpreter over an explicit list of
environment events (request lifecycle events, frame navigations, the
deadline timer firing, trigger completion, the 500 ms grace sleep expiring
and the 1000 ms settle delay expiring).  Real time is abstracted into the
order of events: "within the 500 ms grace window" means "before the
`graceExpire` event", "before the 10000 ms deadline" means "before the
`timerFire` event".
-/

/-! ## Navigation Error Filter (`isNavigationError`, utils.ts lines 89-97) -/

/-- A JavaScript value thrown by the trigger: either an `Error` instance
carrying a message, or any other value (`isNavigationError` first checks
`error instanceof Error`). -/
inductive JsValue where
  | error (message : List Char)
  | nonError
deriving DecidableEq, Repr

/-- Embedding of JavaScript `String.prototype.includes`: substring test,
checking `needle.isPrefixOf` at each position of the haystack. -/
def listIncludes (hay needle : List Char) : Bool :=
  match hay with
  | [] => needle.isEmpty
  | _ :: t => needle.isPrefixOf hay || listIncludes t needle

/-- Embedding of `isNavigationError` (utils.ts lines 89-97): lowercase the
message and test the four fixed substrings. -/
def isNavigationError (e : JsValue) : Bool :=
  match e with
  | JsValue.nonError => false
  | JsValue.error message =>
      let m := message.map Char.toLower
      listIncludes m ("execution context was destroyed".toList) ||
      listIncludes m ("most likely because of a navigation".toList) ||
      listIncludes m ("frame was detached".toList) ||
      listIncludes m ("navigating frame was detached".toList)

/-- Spec-side notion: `msg`, compared case-insensitively, contains the
(lowercase) pattern `pat`: some segment of `msg` lowercases to `pat`. -/
def containsCI (msg pat : List Char) : Prop :=
  ∃ pre mid post, msg = pre ++ mid ++ post ∧ mid.map Char.toLower = pat

theorem listIncludes_iff (hay needle : List Char) :
    listIncludes hay needle = true ↔ ∃ pre post, hay = pre ++ needle ++ post := by
  induction hay with
  | nil =>
      simp only [listIncludes, List.isEmpty_iff]
      constructor
      · rintro rfl
        exact ⟨[], [], rfl⟩
      · rintro ⟨pre, post, h⟩
        rcases List.append_eq_nil.mp h.symm with ⟨h1, h2⟩
        rcases List.append_eq_nil.mp h1 with ⟨_, h3⟩
        exact h3
  | cons c t ih =>
      simp only [listIncludes, Bool.or_eq_true, ih, List.isPrefixOf_iff_prefix]
      constructor
      · rintro (⟨post, hpost⟩ | ⟨pre, post, rfl⟩)
        · exact ⟨[], post, by simp [hpost.symm]⟩
        · exact ⟨c :: pre, post, rfl⟩
      · rintro ⟨pre, post, hsplit⟩
        cases pre with
        | nil =>
            left
            exact ⟨post, by simpa using hsplit.symm⟩
        | cons c' pre' =>
            right
            rw [List.cons_append, List.cons_append] at hsplit
            exact ⟨pre', post, (List.cons.injEq .. ▸ hsplit).2⟩

theorem listIncludes_map_iff (f : Char → Char) (l s : List Char) :
    listIncludes (l.map f) s = true ↔
      ∃ pre mid post, l = pre ++ mid ++ post ∧ mid.map f = s := by
  rw [listIncludes_iff]
  constructor
  · rintro ⟨pre, post, h⟩
    rw [List.append_assoc] at h
    rcases List.map_eq_append_iff.mp h with ⟨l₁, l₂, rfl, h₁, h₂⟩
    rcases List.map_eq_append_iff.mp h₂ with ⟨mid, l₃, rfl, hmid, h₃⟩
    exact ⟨l₁, mid, l₃, by simp, hmid⟩
  · rintro ⟨pre, mid, post, rfl, hmid⟩
    exact ⟨pre.map f, post.map f, by simp [hmid]⟩

/-- Claim C6: the Navigation Error Filter is a pure function from an error
value to a boolean (it is a Lean `def`, hence stateless and effect-free);
on every `Error` value it returns `true` exactly when the message, compared
case-insensitively, contains one of the four fixed substrings, and on every
non-`Error` value it returns `false`. -/
theorem isNavigationError_characterization :
    (∀ msg : List Char,
      isNavigationError (JsValue.error msg) = true ↔
        (containsCI msg ("execution context was destroyed".toList) ∨
         containsCI msg ("most likely because of a navigation".toList) ∨
         containsCI msg ("frame was detached".toList) ∨
         containsCI msg ("navigating frame was detached".toList))) ∧
    isNavigationError JsValue.nonError = false := by
  refine ⟨fun msg => ?_, rfl⟩
  simp only [isNavigationError, Bool.or_eq_true, listIncludes_map_iff, containsCI, or_assoc]

/-! ## File-name generation (`dateAsFileName`, utils.ts lines 103-106) -/

/-- The character replacement performed by `.replace(/[:.]/g, '-')`:
every colon and period becomes a dash. -/
def sanitizeTimestampChar (c : Char) : Char :=
  if c = ':' ∨ c = '.' then '-' else c

/-- Embedding of `dateAsFileName` (utils.ts lines 103-106).  The current
ISO-8601 timestamp `date.toISOString()` is passed in as `iso`; the result is
the template string `prefix + "-" + sanitized + "." + extension`. -/
def dateAsFileName (iso : List Char) (extension : List Char) (pfx : List Char) : List Char :=
  pfx ++ ('-' :: iso.map sanitizeTimestampChar) ++ ('.' :: extension)

theorem sanitize_ne_colon (c : Char) : sanitizeTimestampChar c ≠ ':' := by
  unfold sanitizeTimestampChar
  split
  · decide
  · rename_i h
    intro hc
    exact h (Or.inl hc)

theorem sanitize_ne_period (c : Char) : sanitizeTimestampChar c ≠ '.' := by
  unfold sanitizeTimestampChar
  split
  · decide
  · rename_i h
    intro hc
    exact h (Or.inr hc)

/-- Claim C8 counterexample: the claim quantifies over every prefix and
extension, but with prefix `":"` the generated name does contain a colon
(and with extension `"tar.gz"` it would contain two periods), so the claim
as stated is false.  Concrete instance: prefix `":"`, extension `"yaml"`,
a fixed ISO timestamp. -/
theorem dateAsFileName_colon_counterexample :
    ':' ∈ dateAsFileName ("2025-01-01T00:00:00.000Z".toList) ("yaml".toList) (":".toList) := by
  decide

/-- Claim C8 (amended): for every prefix, extension and timestamp string the
generated name equals prefix ++ "-" ++ (timestamp with every colon and period
replaced by a dash) ++ "." ++ extension; and whenever the prefix and the
extension themselves contain no colon and no period, the generated name
contains no colon and contains exactly one period, the one written before
the extension. -/
theorem dateAsFileName_shape (iso extension pfx : List Char)
    (hpc : ':' ∉ pfx) (hpp : '.' ∉ pfx)
    (hec : ':' ∉ extension) (hep : '.' ∉ extension) :
    dateAsFileName iso extension pfx =
      pfx ++ ('-' :: iso.map sanitizeTimestampChar) ++ ('.' :: extension) ∧
    ':' ∉ dateAsFileName iso extension pfx ∧
    (dateAsFileName iso extension pfx).count '.' = 1 := by
  refine ⟨rfl, ?_, ?_⟩
  · intro hmem
    simp only [dateAsFileName, List.mem_append, List.mem_cons, List.mem_map] at hmem
    rcases hmem with (h | h | h) | h | h
    · exact hpc h
    · exact absurd h.symm (by decide)
    · rcases h with ⟨c, _, hc⟩
      exact sanitize_ne_colon c hc
    · exact absurd h.symm (by decide)
    · exact hec h
  · simp only [dateAsFileName, List.count_append, List.count_cons]
    have h1 : pfx.count '.' = 0 := List.count_eq_zero.mpr hpp
    have h2 : (iso.map sanitizeTimestampChar).count '.' = 0 := by
      refine List.count_eq_zero.mpr ?_
      intro hmem
      rcases List.mem_map.mp hmem with ⟨c, _, hc⟩
      exact sanitize_ne_period c hc
    have h3 : extension.count '.' = 0 := List.count_eq_zero.mpr hep
    simp [h1, h2, h3]

/-! ## Output Router (`determineOutputFile`) -/

/-- The caller's routing directive, the tri-state parameter of the Output
Router (spec section 9): absent, an explicit request for file output with a
generated name (empty-string filename), an explicit request for inline
output, or an explicit file name. -/
inductive Directive where
  | absent
  | useFile
  | inlineReq
  | named (name : List Char)
deriving DecidableEq, Repr

/-- Where the Output Router places the content. -/
inductive OutputDestination where
  | file (name : List Char)
  | inlineContent
deriving DecidableEq, Repr

/-- Modelled from the spec: `determineOutputFile` is imported and called by
the `browser_evaluate` tool (`determineOutputFile(params.filename,
resultSize, 'evaluate', 'json')`) but its definition is not among the
sources; this definition follows the spec's decision table (directive x
size-vs-threshold): explicit filename => File(filename); explicit
"use file" => File(generated name); explicit "inline" => Inline; absent and
size >= threshold => File(generated name); absent and size < threshold =>
Inline.  The generated name is `dateAsFileName` applied to the semantic
prefix and extension of the call site. -/
def determineOutputFile (directive : Directive) (sizeBytes threshold : Nat)
    (iso pfx extension : List Char) : OutputDestination :=
  match directive with
  | Directive.named n => OutputDestination.file n
  | Directive.useFile => OutputDestination.file (dateAsFileName iso extension pfx)
  | Directive.inlineReq => OutputDestination.inlineContent
  | Directive.absent =>
      if threshold ≤ sizeBytes then
        OutputDestination.file (dateAsFileName iso extension pfx)
      else
        OutputDestination.inlineContent

/-- Claim C1: with no directive the destination is File with a generated
name when the byte size is at least the threshold and Inline when it is
below; an explicit filename or an explicit use-file directive always yields
File and an explicit inline directive always yields Inline, regardless of
size. -/
theorem determineOutputFile_decision_table (sizeBytes threshold : Nat)
    (iso pfx extension n : List Char) :
    (threshold ≤ sizeBytes →
      determineOutputFile Directive.absent sizeBytes threshold iso pfx extension =
        OutputDestination.file (dateAsFileName iso extension pfx)) ∧
    (sizeBytes < threshold →
      determineOutputFile Directive.absent sizeBytes threshold iso pfx extension =
        OutputDestination.inlineContent) ∧
    determineOutputFile (Directive.named n) sizeBytes threshold iso pfx extension =
      OutputDestination.file n ∧
    determineOutputFile Directive.useFile sizeBytes threshold iso pfx extension =
      OutputDestination.file (dateAsFileName iso extension pfx) ∧
    determineOutputFile Directive.inlineReq sizeBytes threshold iso pfx extension =
      OutputDestination.inlineContent := by
  refine ⟨fun h => ?_, fun h => ?_, rfl, rfl, rfl⟩
  · simp [determineOutputFile, h]
  · simp [determineOutputFile, Nat.not_le.mpr h]

/-- Claim C1 witness, at the spec's own example numbers: 500-byte content
with threshold 1024 and no directive is inlined; 2000-byte content with the
same threshold and no directive goes to a generated file; the explicit name
"x.yaml" always yields File("x.yaml"). -/
theorem determineOutputFile_decision_table_witness :
    determineOutputFile Directive.absent 500 1024 ("t".toList) ("evaluate".toList) ("json".toList) =
      OutputDestination.inlineContent ∧
    determineOutputFile Directive.absent 2000 1024 ("t".toList) ("evaluate".toList) ("json".toList) =
      OutputDestination.file (dateAsFileName ("t".toList) ("json".toList) ("evaluate".toList)) ∧
    determineOutputFile (Directive.named ("x.yaml".toList)) 500 1024 ("t".toList) ("evaluate".toList) ("json".toList) =
      OutputDestination.file ("x.yaml".toList) :=
  ⟨(determineOutputFile_decision_table 500 1024 ("t".toList) ("evaluate".toList) ("json".toList)
      ("x.yaml".toList)).2.1 (by decide),
   (determineOutputFile_decision_table 2000 1024 ("t".toList) ("evaluate".toList) ("json".toList)
      ("x.yaml".toList)).1 (by decide),
   (determineOutputFile_decision_table 500 1024 ("t".toList) ("evaluate".toList) ("json".toList)
      ("x.yaml".toList)).2.2.1⟩

/-- Claim C8 witness: for the concrete prefix "snapshot", extension "yaml"
and a fixed ISO timestamp, the hypotheses hold and the generated name
contains no colon and exactly one period. -/
theorem dateAsFileName_shape_witness :
    ':' ∉ dateAsFileName ("2025-01-01T00:00:00.000Z".toList) ("yaml".toList) ("snapshot".toList) ∧
    (dateAsFileName ("2025-01-01T00:00:00.000Z".toList) ("yaml".toList) ("snapshot".toList)).count '.' = 1 :=
  ⟨(dateAsFileName_shape ("2025-01-01T00:00:00.000Z".toList) ("yaml".toList) ("snapshot".toList)
      (by decide) (by decide) (by decide) (by decide)).2.1,
   (dateAsFileName_shape ("2025-01-01T00:00:00.000Z".toList) ("yaml".toList) ("snapshot".toList)
      (by decide) (by decide) (by decide) (by decide)).2.2⟩

/-! ## Snapshot routing (`shouldSaveSnapshotToFile`, utils.ts lines 115-122) -/

/-- The `snapshotFile` parameter: `boolean | string | undefined`. -/
inductive SnapshotFileParam where
  | undef
  | boolVal (b : Bool)
  | strVal (s : List Char)
deriving DecidableEq, Repr

/-- Embedding of `shouldSaveSnapshotToFile` (utils.ts lines 115-122).
The environment variable `PW_MCP_SNAPSHOT_INLINE` is passed in as
`envInline` (`none` when unset). -/
def shouldSaveSnapshotToFile (snapshotFile : SnapshotFileParam)
    (envInline : Option (List Char)) : Bool :=
  match snapshotFile with
  | SnapshotFileParam.boolVal false => false
  | SnapshotFileParam.boolVal true => true
  | SnapshotFileParam.strVal _ => true
  | SnapshotFileParam.undef => decide (envInline ≠ some ("1".toList))

/-- Claim C9: when the directive is absent the result is decided by
`PW_MCP_SNAPSHOT_INLINE` alone — `false` (inline) exactly when the variable
equals "1" and `true` (file) otherwise, with no size input at all; explicit
`false` always yields inline, and `true` or any string always yields file. -/
theorem shouldSaveSnapshotToFile_characterization :
    (∀ envInline : Option (List Char),
      (shouldSaveSnapshotToFile SnapshotFileParam.undef envInline = false ↔
        envInline = some ("1".toList))) ∧
    (∀ envInline, shouldSaveSnapshotToFile (SnapshotFileParam.boolVal false) envInline = false) ∧
    (∀ envInline, shouldSaveSnapshotToFile (SnapshotFileParam.boolVal true) envInline = true) ∧
    (∀ envInline s, shouldSaveSnapshotToFile (SnapshotFileParam.strVal s) envInline = true) := by
  refine ⟨fun envInline => ?_, fun _ => rfl, fun _ => rfl, fun _ _ => rfl⟩
  simp [shouldSaveSnapshotToFile]

/-! ## Network request statistics (`browser_network_requests`, network.ts lines 43-99) -/

/-- `request.timing()`: start of the request and of the response, in
milliseconds; Playwright reports `-1` for a missing value. -/
structure Timing where
  requestStart : Rat
  responseStart : Rat
deriving DecidableEq, Repr

/-- A network request record as the handler sees it: its timing, and the
response status when `_hasResponse` holds and `request.response()` is
non-null (`none` otherwise). -/
structure RequestRecord where
  timing : Timing
  responseStatus : Option Nat
deriving DecidableEq, Repr

/-- The guard `timing.responseStart >= 0 && timing.requestStart >= 0`. -/
def hasTiming (r : RequestRecord) : Bool :=
  decide (0 ≤ r.timing.responseStart) && decide (0 ≤ r.timing.requestStart)

/-- The guard `resp && resp.status() >= 400`. -/
def isFailedRequest (r : RequestRecord) : Bool :=
  match r.responseStatus with
  | some s => decide (400 ≤ s)
  | none => false

/-- Accumulator of the statistics loop of the handler (network.ts lines
50-67): `failedCount`, `totalDuration`, `requestCount`. -/
structure NetworkLoopAcc where
  failedCount : Nat
  totalDuration : Rat
  requestCount : Nat
deriving DecidableEq, Repr

/-- One iteration of `for (const request of filteredRequests)` in the
statistics loop. -/
def networkLoopStep (acc : NetworkLoopAcc) (r : RequestRecord) : NetworkLoopAcc :=
  let acc1 := if isFailedRequest r then { acc with failedCount := acc.failedCount + 1 } else acc
  if hasTiming r then
    { acc1 with
        totalDuration := acc1.totalDuration + (r.timing.responseStart - r.timing.requestStart),
        requestCount := acc1.requestCount + 1 }
  else acc1

/-- The whole statistics loop over the request list. -/
def networkLoop (requests : List RequestRecord) : NetworkLoopAcc :=
  requests.foldl networkLoopStep { failedCount := 0, totalDuration := 0, requestCount := 0 }

/-- `const avgDuration = requestCount > 0 ? Math.round(totalDuration / requestCount) : 0`
(network.ts line 96).  JavaScript `Math.round` is floor of x + 1/2, which is
Mathlib's `round`. -/
def avgDuration (requests : List RequestRecord) : Int :=
  let acc := networkLoop requests
  if 0 < acc.requestCount then round (acc.totalDuration / (acc.requestCount : Rat)) else 0

/-- The reported total is the length of the unfiltered list
(`totalRequests = filteredRequests.length` before any filter is applied,
network.ts lines 47-48). -/
def totalRequests (requests : List RequestRecord) : Nat :=
  requests.length

/-- The duration of one timed record, `responseStart - requestStart`. -/
def requestDuration (r : RequestRecord) : Rat :=
  r.timing.responseStart - r.timing.requestStart

theorem networkLoop_foldl (rs : List RequestRecord) (acc : NetworkLoopAcc) :
    rs.foldl networkLoopStep acc =
      { failedCount := acc.failedCount + (rs.filter isFailedRequest).length,
        totalDuration := acc.totalDuration + ((rs.filter hasTiming).map requestDuration).sum,
        requestCount := acc.requestCount + (rs.filter hasTiming).length } := by
  induction rs generalizing acc with
  | nil => simp
  | cons r rs ih =>
      rw [List.foldl_cons, ih]
      unfold networkLoopStep requestDuration
      by_cases hf : isFailedRequest r <;> by_cases ht : hasTiming r <;>
        simp [hf, ht, List.filter_cons] <;>
        (repeat' constructor) <;> ring

/-- Claim C7: the reported average duration is the sum of
`responseStart - requestStart` over the records whose two timing values are
non-negative, divided by the number of those records and rounded to the
nearest whole millisecond (`0` when no record has timing); records without
timing are excluded from the average but counted in the reported total;
and at the spec's example — timings `(0, 100)` and `(0, 50)` plus one
record with missing timing — the average is `75` and the total is `3`. -/
theorem avgDuration_characterization :
    (∀ rs : List RequestRecord,
      totalRequests rs = rs.length ∧
      avgDuration rs =
        (if (rs.filter hasTiming).length = 0 then 0
         else round (((rs.filter hasTiming).map requestDuration).sum /
                      ((rs.filter hasTiming).length : Rat)))) ∧
    avgDuration
      [ { timing := { requestStart := 0, responseStart := 100 }, responseStatus := some 200 },
        { timing := { requestStart := 0, responseStart := 50 }, responseStatus := some 200 },
        { timing := { requestStart := -1, responseStart := -1 }, responseStatus := none } ] = 75 ∧
    totalRequests
      [ { timing := { requestStart := 0, responseStart := 100 }, responseStatus := some 200 },
        { timing := { requestStart := 0, responseStart := 50 }, responseStatus := some 200 },
        { timing := { requestStart := -1, responseStart := -1 }, responseStatus := none } ] = 3 := by
  refine ⟨fun rs => ⟨rfl, ?_⟩, ?_, rfl⟩
  case refine_2 =>
    have h2 : networkLoop
        [ { timing := { requestStart := 0, responseStart := 100 }, responseStatus := some 200 },
          { timing := { requestStart := 0, responseStart := 50 }, responseStatus := some 200 },
          { timing := { requestStart := -1, responseStart := -1 }, responseStatus := none } ] =
        { failedCount := 0, totalDuration := 150, requestCount := 2 } := by
      unfold networkLoop
      rw [networkLoop_foldl]
      norm_num [hasTiming, isFailedRequest, requestDuration, List.filter_cons]
    rw [avgDuration, h2]
    norm_num [round_eq]
  unfold avgDuration networkLoop
  rw [networkLoop_foldl]
  simp only [Nat.zero_add, Rat.zero_add, zero_add]
  by_cases h : (rs.filter hasTiming).length = 0
  · simp [h]
  · simp [h, Nat.pos_of_ne_zero h]

/-! ## Console messages handler (`browser_console_messages`) -/

/-- Console message types: `'error' | 'warning' | 'log' | 'info'`. -/
inductive MsgType where
  | error
  | warning
  | log
  | info
deriving DecidableEq, BEq, Repr

/-- One console message record of the per-session ordered log. -/
structure MessageRecord where
  mtype : MsgType
  text : List Char
deriving DecidableEq, BEq, Repr

/-- Modelled from the spec: `tab.consoleMessages(types)` is provided by the
`Tab` collaborator, whose source is not among the files; per the spec it
non-destructively filters the ordered message log by type and with no
argument returns the whole log. -/
def consoleMessages (logMessages : List MessageRecord)
    (types : Option (List MsgType)) : List MessageRecord :=
  match types with
  | none => logMessages
  | some ts => logMessages.filter (fun m => ts.contains m.mtype)

/-- The input parameters of `browser_console_messages`: the deprecated
`onlyErrors` boolean, the `messageTypes` filter, and the tri-state
`filename` (`string | boolean | undefined`). -/
structure ConsoleParams where
  onlyErrors : Option Bool
  messageTypes : Option (List MsgType)
  filename : SnapshotFileParam
deriving Repr

/-- The type-filter resolution at the top of the handler: a non-empty
`messageTypes` wins, else a truthy `onlyErrors` means `['error']`, else no
filter. -/
def resolveTypes (params : ConsoleParams) : Option (List MsgType) :=
  match params.messageTypes with
  | some ts =>
      if 0 < ts.length then some ts
      else if params.onlyErrors = some true then some [MsgType.error] else none
  | none => if params.onlyErrors = some true then some [MsgType.error] else none

/-- The summary object computed by the handler. -/
structure ConsoleSummary where
  total : Nat
  errors : Nat
  warnings : Nat
  logs : Nat
  infos : Nat
deriving DecidableEq, Repr

/-- The observable outcome of one `browser_console_messages` call: the
summary, the first error and first warning reported for quick reference,
the content written to the file (when the filename branch is taken), and
the message bodies listed inline (when it is not). -/
structure ConsoleOutput where
  summary : ConsoleSummary
  firstError : Option MessageRecord
  firstWarning : Option MessageRecord
  savedContent : Option (List MessageRecord)
  listedBodies : List MessageRecord
deriving DecidableEq, Repr

/-- Embedding of the `browser_console_messages` handler: resolve the type
filter, fetch `messages` (filtered) and `allMessages` (unfiltered), compute
the summary and the first error/warning from `allMessages`, then either
save the filtered messages to a file (`params.filename !== false`) or list
them inline. -/
def consoleHandle (logMessages : List MessageRecord) (params : ConsoleParams) : ConsoleOutput :=
  let types := resolveTypes params
  let messages := consoleMessages logMessages types
  let allMessages := consoleMessages logMessages none
  let summary : ConsoleSummary :=
    { total := allMessages.length
      errors := (allMessages.filter (fun m => m.mtype == MsgType.error)).length
      warnings := (allMessages.filter (fun m => m.mtype == MsgType.warning)).length
      logs := (allMessages.filter (fun m => m.mtype == MsgType.log)).length
      infos := (allMessages.filter (fun m => m.mtype == MsgType.info)).length }
  let firstError := allMessages.find? (fun m => m.mtype == MsgType.error)
  let firstWarning := allMessages.find? (fun m => m.mtype == MsgType.warning)
  if params.filename ≠ SnapshotFileParam.boolVal false then
    { summary := summary, firstError := firstError, firstWarning := firstWarning,
      savedContent := some messages, listedBodies := [] }
  else
    { summary := summary, firstError := firstError, firstWarning := firstWarning,
      savedContent := none, listedBodies := messages }

/-- Claim C10: the summary (total and per-type counts) and the reported
first error and first warning are always computed over the full unfiltered
log, whatever `messageTypes` or `onlyErrors` filter is supplied; only the
saved or inline-listed message bodies are restricted to the filtered
types. -/
theorem consoleHandle_summary_unfiltered (logMessages : List MessageRecord)
    (params : ConsoleParams) :
    (consoleHandle logMessages params).summary.total = logMessages.length ∧
    (consoleHandle logMessages params).summary.errors =
      (logMessages.filter (fun m => m.mtype == MsgType.error)).length ∧
    (consoleHandle logMessages params).summary.warnings =
      (logMessages.filter (fun m => m.mtype == MsgType.warning)).length ∧
    (consoleHandle logMessages params).summary.logs =
      (logMessages.filter (fun m => m.mtype == MsgType.log)).length ∧
    (consoleHandle logMessages params).summary.infos =
      (logMessages.filter (fun m => m.mtype == MsgType.info)).length ∧
    (consoleHandle logMessages params).firstError =
      logMessages.find? (fun m => m.mtype == MsgType.error) ∧
    (consoleHandle logMessages params).firstWarning =
      logMessages.find? (fun m => m.mtype == MsgType.warning) ∧
    ((consoleHandle logMessages params).savedContent =
        some (consoleMessages logMessages (resolveTypes params)) ∧
      (consoleHandle logMessages params).listedBodies = [] ∨
     (consoleHandle logMessages params).savedContent = none ∧
      (consoleHandle logMessages params).listedBodies =
        consoleMessages logMessages (resolveTypes params)) := by
  unfold consoleHandle
  by_cases h : params.filename ≠ SnapshotFileParam.boolVal false
  · simp [h, consoleMessages]
  · simp [h, consoleMessages]

/-! ## Action Completion Barrier (`waitForCompletion`, utils.ts lines 20-87)

The asynchronous execution of one `waitForCompletion` call is embedded as a
deterministic interpreter over a list of environment events.  The state
records the local `requests` set, the `frameNavigated` flag, the resolution
state of `waitBarrier`, the subscription state of the three page listeners,
the deadline timer, and the control point of the function body (`phase`).
Ghost fields record when the barrier resolved (`resolveStep`), whether it
ever resolved while a tracked request was in flight
(`resolvedWhilePending`), and how many effective unsubscriptions /
timer stops happened (the `off*Count` and `timerStopCount` fields;
`page.off` and `clearTimeout` are idempotent, so a disposal is counted only
when it actually removes a live listener or stops a live timer). -/

/-- The deadline timer: still pending, fired (deadline reached), or
cleared by `clearTimeout`. -/
inductive TimerState where
  | pending
  | fired
  | cleared
deriving DecidableEq, Repr

/-- How one `waitForCompletion` call ends: with the trigger's value, with
`undefined` after a suppressed navigation error, or by throwing. -/
inductive Outcome where
  | value
  | noValue
  | thrown (e : JsValue)
deriving DecidableEq, Repr

/-- The control point of the function body: the trigger still executing;
the 500 ms grace sleep of the catch block; `await waitBarrier`; the 1000 ms
settle delay; or returned/thrown. -/
inductive Phase where
  | running
  | grace (e : JsValue)
  | awaitBarrier (hasValue : Bool)
  | settling (hasValue : Bool)
  | done (o : Outcome)
deriving DecidableEq, Repr

/-- The state of one `waitForCompletion` invocation. -/
structure BState where
  requests : List Nat
  attached : List Nat
  frameNavigated : Bool
  barrierResolved : Bool
  subsRequest : Bool
  subsReqFailed : Bool
  subsFrameNav : Bool
  timer : TimerState
  loadStatePending : Bool
  offRequestCount : Nat
  offReqFailedCount : Nat
  offFrameNavCount : Nat
  timerStopCount : Nat
  resolveStep : Option Nat
  resolvedWhilePending : Bool
  phase : Phase
deriving DecidableEq, Repr

/-- State right after the subscriptions and `setTimeout` at the top of
`waitForCompletion` (utils.ts lines 51-54). -/
def initState : BState :=
  { requests := [], attached := [], frameNavigated := false, barrierResolved := false,
    subsRequest := true, subsReqFailed := true, subsFrameNav := true,
    timer := TimerState.pending, loadStatePending := false,
    offRequestCount := 0, offReqFailedCount := 0, offFrameNavCount := 0,
    timerStopCount := 0, resolveStep := none, resolvedWhilePending := false,
    phase := Phase.running }

/-- Environment events, in the order the host's event loop delivers them.
`reqStart`/`reqDone`/`reqFailed` are the request lifecycle; `navigate` is a
`framenavigated` page event (`hasParent` true for a child frame);
`timerFire` is the 10000 ms deadline elapsing; `loadStateDone` is
completion of `tab.waitForLoadState('load')`; `triggerOk`/`triggerErr` is
the wrapped operation finishing; `graceExpire` is the 500 ms catch-block
sleep elapsing; `settleDone` is the 1000 ms settle delay elapsing. -/
inductive Event where
  | reqStart (r : Nat)
  | reqDone (r : Nat)
  | reqFailed (r : Nat)
  | navigate (hasParent : Bool)
  | timerFire
  | loadStateDone
  | triggerOk
  | triggerErr (e : JsValue)
  | graceExpire
  | settleDone
deriving DecidableEq, Repr

/-- JavaScript `Set.prototype.add`. -/
def setInsert (r : Nat) (s : List Nat) : List Nat :=
  if r ∈ s then s else s ++ [r]

/-- JavaScript `Set.prototype.delete`. -/
def setDelete (r : Nat) (s : List Nat) : List Nat :=
  s.filter (fun x => x ≠ r)

/-- `waitCallback()`: resolve the `waitBarrier` promise; a promise resolves
at most once, later calls are no-ops.  `i` is the index of the event being
processed, recorded in the ghost field `resolveStep`; the ghost
`resolvedWhilePending` records a resolution happening while the tracked
request set is non-empty. -/
def waitCallback (i : Nat) (st : BState) : BState :=
  if st.barrierResolved then st
  else
    { st with
        barrierResolved := true
        resolveStep := some i
        resolvedWhilePending := st.resolvedWhilePending || decide (st.requests ≠ []) }

/-- `clearTimeout(timeout)`: stops the timer only if it is still pending. -/
def clearTimer (st : BState) : BState :=
  if st.timer = TimerState.pending then
    { st with timer := TimerState.cleared, timerStopCount := st.timerStopCount + 1 }
  else st

/-- `dispose()` (utils.ts lines 56-61): unsubscribe the three page
listeners and clear the timer; `page.off` of an already-removed listener is
a no-op, so each `off*Count` only moves on an effective removal. -/
def dispose (st : BState) : BState :=
  let st1 :=
    if st.subsRequest = true then
      { st with subsRequest := false, offRequestCount := st.offRequestCount + 1 }
    else st
  let st2 :=
    if st1.subsReqFailed = true then
      { st1 with subsReqFailed := false, offReqFailedCount := st1.offReqFailedCount + 1 }
    else st1
  let st3 :=
    if st2.subsFrameNav = true then
      { st2 with subsFrameNav := false, offFrameNavCount := st2.offFrameNavCount + 1 }
    else st2
  clearTimer st3

/-- `responseListener` (utils.ts lines 26-30): delete the request, and
resolve the barrier when the set becomes empty. -/
def responseListener (i r : Nat) (st : BState) : BState :=
  if setDelete r st.requests = [] then
    waitCallback i { st with requests := setDelete r st.requests }
  else
    { st with requests := setDelete r st.requests }

/-- Body of `frameNavigateListener` for a top frame (utils.ts lines 40-43):
set the flag, dispose, `clearTimeout` again (a no-op), and chain
`waitForLoadState('load').then(waitCallback)`. -/
def frameNavigateEffect (st : BState) : BState :=
  { clearTimer (dispose { st with frameNavigated := true }) with loadStatePending := true }

/-- Exit of the function body: set the outcome and run the `finally`
block's `dispose()`. -/
def toDone (o : Outcome) (st : BState) : BState :=
  dispose { st with phase := Phase.done o }

/-- `await waitBarrier` completes as soon as the barrier is resolved: lift
the phase from the barrier wait to the settle delay. -/
def advanceWait (st : BState) : BState :=
  match st.phase with
  | Phase.awaitBarrier b => if st.barrierResolved then { st with phase := Phase.settling b } else st
  | _ => st

/-- Effect of one environment event on the state, before `advanceWait`.
`i` is the index of the event in the schedule. -/
def applyEvent (i : Nat) (st : BState) (ev : Event) : BState :=
  match ev with
  | Event.reqStart r =>
      if st.subsRequest = true then
        { st with requests := setInsert r st.requests, attached := setInsert r st.attached }
      else st
  | Event.reqDone r =>
      if r ∈ st.attached then
        responseListener i r { st with attached := setDelete r st.attached }
      else st
  | Event.reqFailed r =>
      if st.subsReqFailed = true ∨ r ∈ st.attached then
        responseListener i r { st with attached := setDelete r st.attached }
      else st
  | Event.navigate hasParent =>
      if st.subsFrameNav = true ∧ hasParent = false then frameNavigateEffect st else st
  | Event.timerFire =>
      if st.timer = TimerState.pending then
        waitCallback i
          (dispose { st with timer := TimerState.fired, timerStopCount := st.timerStopCount + 1 })
      else st
  | Event.loadStateDone =>
      if st.loadStatePending = true then
        waitCallback i { st with loadStatePending := false }
      else st
  | Event.triggerOk =>
      match st.phase with
      | Phase.running =>
          if st.requests = [] ∧ st.frameNavigated = false then
            { waitCallback i st with phase := Phase.awaitBarrier true }
          else
            { st with phase := Phase.awaitBarrier true }
      | _ => st
  | Event.triggerErr e =>
      match st.phase with
      | Phase.running =>
          if isNavigationError e = true then
            if st.frameNavigated = true then { st with phase := Phase.awaitBarrier false }
            else { st with phase := Phase.grace e }
          else toDone (Outcome.thrown e) st
      | _ => st
  | Event.graceExpire =>
      match st.phase with
      | Phase.grace e =>
          if st.frameNavigated = true then { st with phase := Phase.awaitBarrier false }
          else toDone (Outcome.thrown e) st
      | _ => st
  | Event.settleDone =>
      match st.phase with
      | Phase.settling b => toDone (if b then Outcome.value else Outcome.noValue) st
      | _ => st

/-- One step of the interpreter: a returned/thrown call processes nothing
further; otherwise apply the event and let a resolved barrier wait
advance. -/
def step (i : Nat) (st : BState) (ev : Event) : BState :=
  match st.phase with
  | Phase.done _ => st
  | _ => advanceWait (applyEvent i st ev)

/-- Run the interpreter over a schedule, numbering events from `i`. -/
def runFrom (i : Nat) (st : BState) : List Event → BState
  | [] => st
  | ev :: rest => runFrom (i + 1) (step i st ev) rest

/-- Run one `waitForCompletion` invocation against a schedule of
environment events. -/
def run (evs : List Event) : BState :=
  runFrom 0 initState evs

/-! ### Basic lemmas about the interpreter -/

theorem runFrom_append (l₁ l₂ : List Event) :
    ∀ (i : Nat) (st : BState),
      runFrom i st (l₁ ++ l₂) = runFrom (i + l₁.length) (runFrom i st l₁) l₂ := by
  induction l₁ with
  | nil => intro i st; simp [runFrom]
  | cons e t ih =>
      intro i st
      have harith : i + (t.length + 1) = i + 1 + t.length := by omega
      simp only [List.cons_append, List.append_eq, runFrom, ih, List.length_cons, harith]

theorem dispose_eq (st : BState) :
    dispose st =
      { st with
          subsRequest := false
          subsReqFailed := false
          subsFrameNav := false
          offRequestCount := if st.subsRequest then st.offRequestCount + 1 else st.offRequestCount
          offReqFailedCount :=
            if st.subsReqFailed then st.offReqFailedCount + 1 else st.offReqFailedCount
          offFrameNavCount := if st.subsFrameNav then st.offFrameNavCount + 1 else st.offFrameNavCount
          timer := if st.timer = TimerState.pending then TimerState.cleared else st.timer
          timerStopCount :=
            if st.timer = TimerState.pending then st.timerStopCount + 1 else st.timerStopCount } := by
  obtain ⟨r, a, fn, br, s1, s2, s3, tm, lp, c1, c2, c3, c4, rs, rw, ph⟩ := st
  unfold dispose clearTimer
  split_ifs <;> simp_all

theorem frameNavigateEffect_eq (st : BState) :
    frameNavigateEffect st =
      { st with
          frameNavigated := true
          subsRequest := false
          subsReqFailed := false
          subsFrameNav := false
          offRequestCount := if st.subsRequest then st.offRequestCount + 1 else st.offRequestCount
          offReqFailedCount :=
            if st.subsReqFailed then st.offReqFailedCount + 1 else st.offReqFailedCount
          offFrameNavCount := if st.subsFrameNav then st.offFrameNavCount + 1 else st.offFrameNavCount
          timer := if st.timer = TimerState.pending then TimerState.cleared else st.timer
          timerStopCount :=
            if st.timer = TimerState.pending then st.timerStopCount + 1 else st.timerStopCount
          loadStatePending := true } := by
  unfold frameNavigateEffect
  rw [dispose_eq]
  obtain ⟨r, a, fn, br, s1, s2, s3, tm, lp, c1, c2, c3, c4, rs, rw, ph⟩ := st
  unfold clearTimer
  split_ifs <;> simp_all

theorem toDone_eq (o : Outcome) (st : BState) :
    toDone o st =
      { st with
          subsRequest := false
          subsReqFailed := false
          subsFrameNav := false
          offRequestCount := if st.subsRequest then st.offRequestCount + 1 else st.offRequestCount
          offReqFailedCount :=
            if st.subsReqFailed then st.offReqFailedCount + 1 else st.offReqFailedCount
          offFrameNavCount := if st.subsFrameNav then st.offFrameNavCount + 1 else st.offFrameNavCount
          timer := if st.timer = TimerState.pending then TimerState.cleared else st.timer
          timerStopCount :=
            if st.timer = TimerState.pending then st.timerStopCount + 1 else st.timerStopCount
          phase := Phase.done o } := by
  unfold toDone
  rw [dispose_eq]

theorem wc_requests (i : Nat) (st : BState) : (waitCallback i st).requests = st.requests := by
  unfold waitCallback; split <;> rfl

theorem wc_attached (i : Nat) (st : BState) : (waitCallback i st).attached = st.attached := by
  unfold waitCallback; split <;> rfl

theorem wc_frameNavigated (i : Nat) (st : BState) :
    (waitCallback i st).frameNavigated = st.frameNavigated := by
  unfold waitCallback; split <;> rfl

theorem wc_subsRequest (i : Nat) (st : BState) :
    (waitCallback i st).subsRequest = st.subsRequest := by
  unfold waitCallback; split <;> rfl

theorem wc_subsReqFailed (i : Nat) (st : BState) :
    (waitCallback i st).subsReqFailed = st.subsReqFailed := by
  unfold waitCallback; split <;> rfl

theorem wc_subsFrameNav (i : Nat) (st : BState) :
    (waitCallback i st).subsFrameNav = st.subsFrameNav := by
  unfold waitCallback; split <;> rfl

theorem wc_timer (i : Nat) (st : BState) : (waitCallback i st).timer = st.timer := by
  unfold waitCallback; split <;> rfl

theorem wc_loadStatePending (i : Nat) (st : BState) :
    (waitCallback i st).loadStatePending = st.loadStatePending := by
  unfold waitCallback; split <;> rfl

theorem wc_offRequestCount (i : Nat) (st : BState) :
    (waitCallback i st).offRequestCount = st.offRequestCount := by
  unfold waitCallback; split <;> rfl

theorem wc_offReqFailedCount (i : Nat) (st : BState) :
    (waitCallback i st).offReqFailedCount = st.offReqFailedCount := by
  unfold waitCallback; split <;> rfl

theorem wc_offFrameNavCount (i : Nat) (st : BState) :
    (waitCallback i st).offFrameNavCount = st.offFrameNavCount := by
  unfold waitCallback; split <;> rfl

theorem wc_timerStopCount (i : Nat) (st : BState) :
    (waitCallback i st).timerStopCount = st.timerStopCount := by
  unfold waitCallback; split <;> rfl

theorem wc_phase (i : Nat) (st : BState) : (waitCallback i st).phase = st.phase := by
  unfold waitCallback; split <;> rfl

theorem wc_barrierResolved (i : Nat) (st : BState) :
    (waitCallback i st).barrierResolved = true := by
  unfold waitCallback; split <;> simp_all

theorem wc_rwp_of_empty (i : Nat) (st : BState) (h : st.requests = []) :
    (waitCallback i st).resolvedWhilePending = st.resolvedWhilePending := by
  unfold waitCallback; split <;> simp_all

theorem rl_requests (i r : Nat) (st : BState) :
    (responseListener i r st).requests = setDelete r st.requests := by
  unfold responseListener
  split <;> simp_all [wc_requests]

theorem rl_attached (i r : Nat) (st : BState) :
    (responseListener i r st).attached = st.attached := by
  unfold responseListener; split <;> simp [wc_attached]

theorem rl_frameNavigated (i r : Nat) (st : BState) :
    (responseListener i r st).frameNavigated = st.frameNavigated := by
  unfold responseListener; split <;> simp [wc_frameNavigated]

theorem rl_subsRequest (i r : Nat) (st : BState) :
    (responseListener i r st).subsRequest = st.subsRequest := by
  unfold responseListener; split <;> simp [wc_subsRequest]

theorem rl_subsReqFailed (i r : Nat) (st : BState) :
    (responseListener i r st).subsReqFailed = st.subsReqFailed := by
  unfold responseListener; split <;> simp [wc_subsReqFailed]

theorem rl_subsFrameNav (i r : Nat) (st : BState) :
    (responseListener i r st).subsFrameNav = st.subsFrameNav := by
  unfold responseListener; split <;> simp [wc_subsFrameNav]

theorem rl_timer (i r : Nat) (st : BState) :
    (responseListener i r st).timer = st.timer := by
  unfold responseListener; split <;> simp [wc_timer]

theorem rl_loadStatePending (i r : Nat) (st : BState) :
    (responseListener i r st).loadStatePending = st.loadStatePending := by
  unfold responseListener; split <;> simp [wc_loadStatePending]

theorem rl_offRequestCount (i r : Nat) (st : BState) :
    (responseListener i r st).offRequestCount = st.offRequestCount := by
  unfold responseListener; split <;> simp [wc_offRequestCount]

theorem rl_offReqFailedCount (i r : Nat) (st : BState) :
    (responseListener i r st).offReqFailedCount = st.offReqFailedCount := by
  unfold responseListener; split <;> simp [wc_offReqFailedCount]

theorem rl_offFrameNavCount (i r : Nat) (st : BState) :
    (responseListener i r st).offFrameNavCount = st.offFrameNavCount := by
  unfold responseListener; split <;> simp [wc_offFrameNavCount]

theorem rl_timerStopCount (i r : Nat) (st : BState) :
    (responseListener i r st).timerStopCount = st.timerStopCount := by
  unfold responseListener; split <;> simp [wc_timerStopCount]

theorem rl_phase (i r : Nat) (st : BState) :
    (responseListener i r st).phase = st.phase := by
  unfold responseListener; split <;> simp [wc_phase]

theorem rl_rwp (i r : Nat) (st : BState) :
    (responseListener i r st).resolvedWhilePending = st.resolvedWhilePending := by
  unfold responseListener
  split
  · rename_i h
    rw [wc_rwp_of_empty]
    exact h
  · rfl

theorem rl_barrier_mono (i r : Nat) (st : BState) (h : st.barrierResolved = true) :
    (responseListener i r st).barrierResolved = true := by
  unfold responseListener
  split
  · rw [wc_barrierResolved]
  · simpa using h

theorem aw_requests (st : BState) : (advanceWait st).requests = st.requests := by
  unfold advanceWait; (repeat' split) <;> rfl

theorem aw_attached (st : BState) : (advanceWait st).attached = st.attached := by
  unfold advanceWait; (repeat' split) <;> rfl

theorem aw_frameNavigated (st : BState) : (advanceWait st).frameNavigated = st.frameNavigated := by
  unfold advanceWait; (repeat' split) <;> rfl

theorem aw_barrierResolved (st : BState) : (advanceWait st).barrierResolved = st.barrierResolved := by
  unfold advanceWait; (repeat' split) <;> rfl

theorem aw_subsRequest (st : BState) : (advanceWait st).subsRequest = st.subsRequest := by
  unfold advanceWait; (repeat' split) <;> rfl

theorem aw_subsReqFailed (st : BState) : (advanceWait st).subsReqFailed = st.subsReqFailed := by
  unfold advanceWait; (repeat' split) <;> rfl

theorem aw_subsFrameNav (st : BState) : (advanceWait st).subsFrameNav = st.subsFrameNav := by
  unfold advanceWait; (repeat' split) <;> rfl

theorem aw_timer (st : BState) : (advanceWait st).timer = st.timer := by
  unfold advanceWait; (repeat' split) <;> rfl

theorem aw_loadStatePending (st : BState) : (advanceWait st).loadStatePending = st.loadStatePending := by
  unfold advanceWait; (repeat' split) <;> rfl

theorem aw_offRequestCount (st : BState) : (advanceWait st).offRequestCount = st.offRequestCount := by
  unfold advanceWait; (repeat' split) <;> rfl

theorem aw_offReqFailedCount (st : BState) :
    (advanceWait st).offReqFailedCount = st.offReqFailedCount := by
  unfold advanceWait; (repeat' split) <;> rfl

theorem aw_offFrameNavCount (st : BState) :
    (advanceWait st).offFrameNavCount = st.offFrameNavCount := by
  unfold advanceWait; (repeat' split) <;> rfl

theorem aw_timerStopCount (st : BState) : (advanceWait st).timerStopCount = st.timerStopCount := by
  unfold advanceWait; (repeat' split) <;> rfl

theorem aw_resolveStep (st : BState) : (advanceWait st).resolveStep = st.resolveStep := by
  unfold advanceWait; (repeat' split) <;> rfl

theorem aw_rwp (st : BState) : (advanceWait st).resolvedWhilePending = st.resolvedWhilePending := by
  unfold advanceWait; (repeat' split) <;> rfl

theorem step_of_done (i : Nat) (st : BState) (ev : Event) (o : Outcome)
    (h : st.phase = Phase.done o) : step i st ev = st := by
  unfold step
  split <;> simp_all

theorem step_of_not_done (i : Nat) (st : BState) (ev : Event)
    (h : ∀ o, st.phase ≠ Phase.done o) :
    step i st ev = advanceWait (applyEvent i st ev) := by
  unfold step
  split
  · rename_i o heq
    exact absurd heq (h o)
  · rfl

theorem aw_phase_done (st : BState) (o : Outcome) :
    (advanceWait st).phase = Phase.done o → st.phase = Phase.done o := by
  unfold advanceWait; (repeat' split) <;> simp_all

/-- Book-keeping invariant tying the listener flags, the timer and the
ghost disposal counters together: the three listeners are always
subscribed or unsubscribed together, each effective removal has been
counted at most once, the timer is pending exactly while the listeners are
live, and a returned/thrown call has its listeners removed. -/
def DisposalInv (st : BState) : Prop :=
  st.subsReqFailed = st.subsRequest ∧
  st.subsFrameNav = st.subsRequest ∧
  st.offRequestCount = (if st.subsRequest = true then 0 else 1) ∧
  st.offReqFailedCount = (if st.subsRequest = true then 0 else 1) ∧
  st.offFrameNavCount = (if st.subsRequest = true then 0 else 1) ∧
  st.timerStopCount = (if st.timer = TimerState.pending then 0 else 1) ∧
  (st.subsRequest = true ↔ st.timer = TimerState.pending) ∧
  (∀ o, st.phase = Phase.done o → st.subsRequest = false)

theorem advanceWait_disposalInv (st : BState) (h : DisposalInv st) :
    DisposalInv (advanceWait st) := by
  obtain ⟨h1, h2, h3, h4, h5, h6, h7, h8⟩ := h
  refine ⟨?_, ?_, ?_, ?_, ?_, ?_, ?_, ?_⟩ <;>
    simp only [aw_subsRequest, aw_subsReqFailed, aw_subsFrameNav, aw_offRequestCount,
      aw_offReqFailedCount, aw_offFrameNavCount, aw_timerStopCount, aw_timer]
  · exact h1
  · exact h2
  · exact h3
  · exact h4
  · exact h5
  · exact h6
  · exact h7
  · intro o ho
    exact h8 o (aw_phase_done st o ho)

theorem toDone_disposalInv (o : Outcome) (st : BState) (h : DisposalInv st) :
    DisposalInv (toDone o st) := by
  obtain ⟨h1, h2, h3, h4, h5, h6, h7, h8⟩ := h
  rw [toDone_eq]
  by_cases hs : st.subsRequest = true
  · have ht : st.timer = TimerState.pending := h7.mp hs
    refine ⟨?_, ?_, ?_, ?_, ?_, ?_, ?_, ?_⟩ <;> simp_all
  · have ht : st.timer ≠ TimerState.pending := fun hh => hs (h7.mpr hh)
    refine ⟨?_, ?_, ?_, ?_, ?_, ?_, ?_, ?_⟩ <;> simp_all

theorem applyEvent_disposalInv (i : Nat) (st : BState) (ev : Event) (h : DisposalInv st) :
    DisposalInv (applyEvent i st ev) := by
  obtain ⟨h1, h2, h3, h4, h5, h6, h7, h8⟩ := h
  cases ev with
  | reqStart r =>
      simp only [applyEvent]
      split <;> exact ⟨h1, h2, h3, h4, h5, h6, h7, h8⟩
  | reqDone r =>
      simp only [applyEvent]
      split
      · refine ⟨?_, ?_, ?_, ?_, ?_, ?_, ?_, ?_⟩ <;>
          simp_all [DisposalInv, rl_subsRequest, rl_subsReqFailed, rl_subsFrameNav,
            rl_offRequestCount, rl_offReqFailedCount, rl_offFrameNavCount,
            rl_timerStopCount, rl_timer, rl_phase]
      · exact ⟨h1, h2, h3, h4, h5, h6, h7, h8⟩
  | reqFailed r =>
      simp only [applyEvent]
      split
      · refine ⟨?_, ?_, ?_, ?_, ?_, ?_, ?_, ?_⟩ <;>
          simp_all [DisposalInv, rl_subsRequest, rl_subsReqFailed, rl_subsFrameNav,
            rl_offRequestCount, rl_offReqFailedCount, rl_offFrameNavCount,
            rl_timerStopCount, rl_timer, rl_phase]
      · exact ⟨h1, h2, h3, h4, h5, h6, h7, h8⟩
  | navigate hasParent =>
      simp only [applyEvent]
      split
      · rename_i hcond
        rw [frameNavigateEffect_eq]
        have hs : st.subsRequest = true := by
          rcases hcond with ⟨hfn, _⟩
          rw [h2] at hfn
          exact hfn
        have ht : st.timer = TimerState.pending := h7.mp hs
        refine ⟨?_, ?_, ?_, ?_, ?_, ?_, ?_, ?_⟩ <;> simp_all
      · exact ⟨h1, h2, h3, h4, h5, h6, h7, h8⟩
  | timerFire =>
      simp only [applyEvent]
      split
      · rename_i ht
        have hs : st.subsRequest = true := h7.mpr ht
        rw [dispose_eq]
        refine ⟨?_, ?_, ?_, ?_, ?_, ?_, ?_, ?_⟩ <;>
          simp_all [wc_subsRequest, wc_subsReqFailed, wc_subsFrameNav, wc_offRequestCount,
            wc_offReqFailedCount, wc_offFrameNavCount, wc_timerStopCount, wc_timer, wc_phase]
      · exact ⟨h1, h2, h3, h4, h5, h6, h7, h8⟩
  | loadStateDone =>
      simp only [applyEvent]
      split
      · refine ⟨?_, ?_, ?_, ?_, ?_, ?_, ?_, ?_⟩ <;>
          simp_all [wc_subsRequest, wc_subsReqFailed, wc_subsFrameNav, wc_offRequestCount,
            wc_offReqFailedCount, wc_offFrameNavCount, wc_timerStopCount, wc_timer, wc_phase]
      · exact ⟨h1, h2, h3, h4, h5, h6, h7, h8⟩
  | triggerOk =>
      simp only [applyEvent]
      (repeat' split) <;>
        first
        | exact ⟨h1, h2, h3, h4, h5, h6, h7, h8⟩
        | (refine ⟨?_, ?_, ?_, ?_, ?_, ?_, ?_, ?_⟩ <;>
            simp_all [wc_subsRequest, wc_subsReqFailed, wc_subsFrameNav, wc_offRequestCount,
              wc_offReqFailedCount, wc_offFrameNavCount, wc_timerStopCount, wc_timer, wc_phase])
  | triggerErr e =>
      simp only [applyEvent]
      (repeat' split) <;>
        first
        | exact ⟨h1, h2, h3, h4, h5, h6, h7, h8⟩
        | exact toDone_disposalInv _ _ ⟨h1, h2, h3, h4, h5, h6, h7, h8⟩
        | (refine ⟨?_, ?_, ?_, ?_, ?_, ?_, ?_, ?_⟩ <;> simp_all)
  | graceExpire =>
      simp only [applyEvent]
      (repeat' split) <;>
        first
        | exact ⟨h1, h2, h3, h4, h5, h6, h7, h8⟩
        | exact toDone_disposalInv _ _ ⟨h1, h2, h3, h4, h5, h6, h7, h8⟩
        | (refine ⟨?_, ?_, ?_, ?_, ?_, ?_, ?_, ?_⟩ <;> simp_all)
  | settleDone =>
      simp only [applyEvent]
      (repeat' split) <;>
        first
        | exact ⟨h1, h2, h3, h4, h5, h6, h7, h8⟩
        | exact toDone_disposalInv _ _ ⟨h1, h2, h3, h4, h5, h6, h7, h8⟩

theorem step_disposalInv (i : Nat) (st : BState) (ev : Event) (h : DisposalInv st) :
    DisposalInv (step i st ev) := by
  by_cases hd : ∀ o, st.phase ≠ Phase.done o
  · rw [step_of_not_done i st ev hd]
    exact advanceWait_disposalInv _ (applyEvent_disposalInv i st ev h)
  · push_neg at hd
    obtain ⟨o, ho⟩ := hd
    rw [step_of_done i st ev o ho]
    exact h

theorem runFrom_disposalInv (evs : List Event) :
    ∀ (i : Nat) (st : BState), DisposalInv st → DisposalInv (runFrom i st evs) := by
  induction evs with
  | nil => intro i st h; exact h
  | cons ev rest ih =>
      intro i st h
      exact ih (i + 1) (step i st ev) (step_disposalInv i st ev h)

theorem initState_disposalInv : DisposalInv initState := by
  refine ⟨rfl, rfl, rfl, rfl, rfl, rfl, by simp [initState], ?_⟩
  intro o ho
  simp [initState] at ho

theorem run_disposalInv (evs : List Event) : DisposalInv (run evs) :=
  runFrom_disposalInv evs 0 initState initState_disposalInv

/-- Claim C2: on every exit path of `waitForCompletion` — that is, in every
schedule whose run reaches a returned or thrown state, covering normal
success, suppressed navigation-race error, propagated error and deadline
timeout — each of the `request`, `requestfailed` and `framenavigated`
listeners has been effectively removed exactly once, the deadline timer has
been effectively stopped exactly once, and at exit no listener is
subscribed and the timer is not pending.  (`page.off` and `clearTimeout`
are idempotent; the ghost counters count effective removals and stops.) -/
theorem waitForCompletion_disposes_once (evs : List Event) (o : Outcome)
    (hdone : (run evs).phase = Phase.done o) :
    (run evs).offRequestCount = 1 ∧
    (run evs).offReqFailedCount = 1 ∧
    (run evs).offFrameNavCount = 1 ∧
    (run evs).timerStopCount = 1 ∧
    (run evs).subsRequest = false ∧
    (run evs).subsReqFailed = false ∧
    (run evs).subsFrameNav = false ∧
    (run evs).timer ≠ TimerState.pending := by
  obtain ⟨h1, h2, h3, h4, h5, h6, h7, h8⟩ := run_disposalInv evs
  have hs : (run evs).subsRequest = false := h8 o hdone
  have ht : (run evs).timer ≠ TimerState.pending := by
    intro hp
    rw [h7.mpr hp] at hs
    exact absurd hs (by decide)
  refine ⟨?_, ?_, ?_, ?_, hs, ?_, ?_, ht⟩ <;> simp_all

/-- Claim C2 witness: the two-event schedule "trigger succeeds with no
requests, settle delay elapses" reaches the returned state, and there each
listener and the timer was disposed exactly once. -/
theorem waitForCompletion_disposes_once_witness :
    (run [Event.triggerOk, Event.settleDone]).phase = Phase.done Outcome.value ∧
    (run [Event.triggerOk, Event.settleDone]).offRequestCount = 1 ∧
    (run [Event.triggerOk, Event.settleDone]).timerStopCount = 1 :=
  ⟨by decide,
   (waitForCompletion_disposes_once [Event.triggerOk, Event.settleDone] Outcome.value
      (by decide)).1,
   (waitForCompletion_disposes_once [Event.triggerOk, Event.settleDone] Outcome.value
      (by decide)).2.2.2.1⟩

/-! ### Claim C4: resolution versus in-flight requests -/

/-- With no top-frame navigation and no deadline firing, no
`waitForLoadState` chain is ever started and the barrier is never resolved
at a moment when the tracked request set is non-empty. -/
def QuietInv (st : BState) : Prop :=
  st.loadStatePending = false ∧ st.resolvedWhilePending = false

theorem applyEvent_quietInv (i : Nat) (st : BState) (ev : Event)
    (hnav : ev ≠ Event.navigate false) (htmr : ev ≠ Event.timerFire)
    (h : QuietInv st) : QuietInv (applyEvent i st ev) := by
  obtain ⟨hlp, hrw⟩ := h
  cases ev with
  | reqStart r =>
      simp only [applyEvent]
      split <;> exact ⟨hlp, hrw⟩
  | reqDone r =>
      simp only [applyEvent]
      split
      · exact ⟨by rw [rl_loadStatePending]; simpa using hlp, by rw [rl_rwp]; simpa using hrw⟩
      · exact ⟨hlp, hrw⟩
  | reqFailed r =>
      simp only [applyEvent]
      split
      · exact ⟨by rw [rl_loadStatePending]; simpa using hlp, by rw [rl_rwp]; simpa using hrw⟩
      · exact ⟨hlp, hrw⟩
  | navigate hasParent =>
      cases hasParent with
      | true => simp only [applyEvent]; split <;> first | exact ⟨hlp, hrw⟩ | simp_all
      | false => exact absurd rfl hnav
  | timerFire => exact absurd rfl htmr
  | loadStateDone =>
      simp only [applyEvent]
      split
      · simp_all
      · exact ⟨hlp, hrw⟩
  | triggerOk =>
      simp only [applyEvent]
      (repeat' split) <;>
        first
        | exact ⟨hlp, hrw⟩
        | (rename_i hcond
           refine ⟨?_, ?_⟩ <;>
             simp_all [wc_loadStatePending, wc_rwp_of_empty _ _ hcond.1])
  | triggerErr e =>
      simp only [applyEvent]
      (repeat' split) <;>
        first
        | exact ⟨hlp, hrw⟩
        | (rw [toDone_eq]; exact ⟨by simpa using hlp, by simpa using hrw⟩)
  | graceExpire =>
      simp only [applyEvent]
      (repeat' split) <;>
        first
        | exact ⟨hlp, hrw⟩
        | (rw [toDone_eq]; exact ⟨by simpa using hlp, by simpa using hrw⟩)
  | settleDone =>
      simp only [applyEvent]
      (repeat' split) <;>
        first
        | exact ⟨hlp, hrw⟩
        | (rw [toDone_eq]; exact ⟨by simpa using hlp, by simpa using hrw⟩)

theorem step_quietInv (i : Nat) (st : BState) (ev : Event)
    (hnav : ev ≠ Event.navigate false) (htmr : ev ≠ Event.timerFire)
    (h : QuietInv st) : QuietInv (step i st ev) := by
  by_cases hd : ∀ o, st.phase ≠ Phase.done o
  · rw [step_of_not_done i st ev hd]
    obtain ⟨hlp, hrw⟩ := applyEvent_quietInv i st ev hnav htmr h
    exact ⟨by rw [aw_loadStatePending]; exact hlp, by rw [aw_rwp]; exact hrw⟩
  · push_neg at hd
    obtain ⟨o, ho⟩ := hd
    rw [step_of_done i st ev o ho]
    exact h

theorem runFrom_quietInv (evs : List Event) :
    ∀ (i : Nat) (st : BState), Event.navigate false ∉ evs → Event.timerFire ∉ evs →
      QuietInv st → QuietInv (runFrom i st evs) := by
  induction evs with
  | nil => intro i st _ _ h; exact h
  | cons ev rest ih =>
      intro i st hnav htmr h
      have h1 : ev ≠ Event.navigate false := fun he => hnav (he ▸ List.mem_cons_self ev rest)
      have h2 : ev ≠ Event.timerFire := fun he => htmr (he ▸ List.mem_cons_self ev rest)
      exact ih (i + 1) (step i st ev) (fun hm => hnav (List.mem_cons_of_mem ev hm))
        (fun hm => htmr (List.mem_cons_of_mem ev hm)) (step_quietInv i st ev h1 h2 h)

/-- Claim C4 (amended): in every schedule with no top-frame navigation and
no deadline firing — in particular whenever all tracked requests complete
before the 10000 ms deadline — the barrier never resolves at a moment when
a tracked request is in flight: every resolution happens with the tracked
request set empty.  (The original claim's stronger reading, "resolution
comes after the last request completes", fails when the tracked set drains
to empty in between; see the counterexample.) -/
theorem barrier_never_resolves_while_inflight (evs : List Event)
    (hnav : Event.navigate false ∉ evs) (htmr : Event.timerFire ∉ evs) :
    (run evs).resolvedWhilePending = false :=
  (runFrom_quietInv evs 0 initState hnav htmr ⟨rfl, rfl⟩).2

/-- Claim C4 witness: a schedule where one request starts and completes and
the trigger then returns; the hypotheses hold and the barrier indeed never
resolved while a request was in flight. -/
theorem barrier_never_resolves_while_inflight_witness :
    (run [Event.reqStart 1, Event.reqDone 1, Event.triggerOk, Event.settleDone]).resolvedWhilePending
      = false ∧
    (run [Event.reqStart 1, Event.reqDone 1, Event.triggerOk, Event.settleDone]).phase =
      Phase.done Outcome.value :=
  ⟨barrier_never_resolves_while_inflight
      [Event.reqStart 1, Event.reqDone 1, Event.triggerOk, Event.settleDone]
      (by decide) (by decide),
   by decide⟩

/-- The schedule refuting claim C4 as stated: request 1 starts and fails,
emptying the set and resolving `waitBarrier` at step 1; the trigger returns
at step 2; request 2 starts at step 3, during the settle delay, while the
`request` listener is still subscribed; the call returns at step 4; and
request 2 only completes at step 5.  Two requests start and both complete
before the deadline (which never fires) and there is no navigation, yet the
barrier resolved at step 1 — before the last request even started — and the
call returned while tracked request 2 was still in flight. -/
def c4Scenario : List Event :=
  [Event.reqStart 1, Event.reqFailed 1, Event.triggerOk, Event.reqStart 2,
   Event.settleDone, Event.reqDone 2]

/-- Claim C4 counterexample: in `c4Scenario` the barrier resolves at step 1
(`resolveStep = some 1`), the call has already returned after step 4 while
request 2 is still tracked and in flight, and request 2 completes only at
index 5.  So "the Barrier resolves only after the last of those requests
completes" is false for the code, whether "resolves" is read as the
internal `waitBarrier` resolution or as the call returning. -/
theorem barrier_resolves_before_last_request_counterexample :
    Event.navigate false ∉ c4Scenario ∧
    Event.timerFire ∉ c4Scenario ∧
    (run c4Scenario).phase = Phase.done Outcome.value ∧
    (run c4Scenario).resolveStep = some 1 ∧
    c4Scenario[5]? = some (Event.reqDone 2) ∧
    (run (c4Scenario.take 5)).phase = Phase.done Outcome.value ∧
    (run (c4Scenario.take 5)).requests = [2] := by
  decide

/-! ### Monotonicity lemmas: subscriptions only go away, the navigated flag
and the barrier resolution only appear -/

theorem applyEvent_subs_mono (i : Nat) (st : BState) (ev : Event) :
    (applyEvent i st ev).subsRequest = true → st.subsRequest = true := by
  cases ev <;> simp only [applyEvent] <;> (repeat' split) <;>
    simp_all [frameNavigateEffect_eq, toDone_eq, dispose_eq, rl_subsRequest, wc_subsRequest]

theorem step_subs_false (i : Nat) (st : BState) (ev : Event) (h : st.subsRequest = false) :
    (step i st ev).subsRequest = false := by
  by_cases hd : ∀ o, st.phase ≠ Phase.done o
  · rw [step_of_not_done i st ev hd, aw_subsRequest]
    cases hres : (applyEvent i st ev).subsRequest
    · rfl
    · rw [applyEvent_subs_mono i st ev hres] at h
      exact absurd h (by decide)
  · push_neg at hd
    obtain ⟨o, ho⟩ := hd
    rw [step_of_done i st ev o ho]
    exact h

theorem runFrom_subs_false (evs : List Event) :
    ∀ (i : Nat) (st : BState), st.subsRequest = false →
      (runFrom i st evs).subsRequest = false := by
  induction evs with
  | nil => intro i st h; exact h
  | cons ev rest ih =>
      intro i st h
      exact ih (i + 1) (step i st ev) (step_subs_false i st ev h)

theorem applyEvent_fn_mono (i : Nat) (st : BState) (ev : Event) (h : st.frameNavigated = true) :
    (applyEvent i st ev).frameNavigated = true := by
  cases ev <;> simp only [applyEvent] <;> (repeat' split) <;>
    simp_all [frameNavigateEffect_eq, toDone_eq, dispose_eq, rl_frameNavigated, wc_frameNavigated]

theorem step_fn_mono (i : Nat) (st : BState) (ev : Event) (h : st.frameNavigated = true) :
    (step i st ev).frameNavigated = true := by
  by_cases hd : ∀ o, st.phase ≠ Phase.done o
  · rw [step_of_not_done i st ev hd, aw_frameNavigated]
    exact applyEvent_fn_mono i st ev h
  · push_neg at hd
    obtain ⟨o, ho⟩ := hd
    rw [step_of_done i st ev o ho]
    exact h

theorem runFrom_fn_mono (evs : List Event) :
    ∀ (i : Nat) (st : BState), st.frameNavigated = true →
      (runFrom i st evs).frameNavigated = true := by
  induction evs with
  | nil => intro i st h; exact h
  | cons ev rest ih =>
      intro i st h
      exact ih (i + 1) (step i st ev) (step_fn_mono i st ev h)

theorem runFrom_fn_back (evs : List Event) (i : Nat) (st : BState)
    (h : (runFrom i st evs).frameNavigated = false) : st.frameNavigated = false := by
  cases hfn : st.frameNavigated
  · rfl
  · rw [runFrom_fn_mono evs i st hfn] at h
    exact absurd h (by decide)

theorem applyEvent_resolved_mono (i : Nat) (st : BState) (ev : Event)
    (h : st.barrierResolved = true) : (applyEvent i st ev).barrierResolved = true := by
  cases ev <;> simp only [applyEvent] <;> (repeat' split) <;>
    simp_all [frameNavigateEffect_eq, toDone_eq, dispose_eq, rl_barrier_mono, wc_barrierResolved]

/-! ### After every step, a resolved barrier wait has already advanced -/

/-- A reachable state is never still waiting on an already-resolved
barrier: `advanceWait` runs at the end of every step. -/
def AwaitOk (st : BState) : Prop :=
  ∀ b, st.phase = Phase.awaitBarrier b → st.barrierResolved = false

theorem advanceWait_awaitOk (st : BState) : AwaitOk (advanceWait st) := by
  intro b hb
  unfold advanceWait at hb ⊢
  cases hph : st.phase <;> simp only [hph] at hb ⊢
  case awaitBarrier b' =>
    by_cases hres : st.barrierResolved = true <;> simp_all
  all_goals simp_all

theorem step_awaitOk (i : Nat) (st : BState) (ev : Event) (h : AwaitOk st) :
    AwaitOk (step i st ev) := by
  by_cases hd : ∀ o, st.phase ≠ Phase.done o
  · rw [step_of_not_done i st ev hd]
    exact advanceWait_awaitOk _
  · push_neg at hd
    obtain ⟨o, ho⟩ := hd
    rw [step_of_done i st ev o ho]
    exact h

theorem initState_awaitOk : AwaitOk initState := by
  intro b hb
  simp [initState] at hb

theorem runFrom_awaitOk (evs : List Event) :
    ∀ (i : Nat) (st : BState), AwaitOk st → AwaitOk (runFrom i st evs) := by
  induction evs with
  | nil => intro i st h; exact h
  | cons ev rest ih =>
      intro i st h
      exact ih (i + 1) (step i st ev) (step_awaitOk i st ev h)

theorem run_awaitOk (evs : List Event) : AwaitOk (run evs) :=
  runFrom_awaitOk evs 0 initState initState_awaitOk

theorem advanceWait_eq_self (st : BState) (h : AwaitOk st) : advanceWait st = st := by
  unfold advanceWait
  cases hph : st.phase <;> simp only [hph]
  case awaitBarrier b =>
    rw [h b hph]
    simp

/-! ### Claim C5: effect of a top-frame navigation -/

/-- After a top-frame navigation has been observed, either the load-state
wait is still outstanding, or the barrier is already resolved, or the call
has already exited. -/
def NavWaitInv (st : BState) : Prop :=
  st.loadStatePending = true ∨ st.barrierResolved = true ∨ ∃ o, st.phase = Phase.done o

theorem applyEvent_lp_or_resolved (i : Nat) (st : BState) (ev : Event)
    (h : st.loadStatePending = true ∨ st.barrierResolved = true) :
    (applyEvent i st ev).loadStatePending = true ∨ (applyEvent i st ev).barrierResolved = true := by
  rcases h with h | h
  · cases ev <;> simp only [applyEvent] <;> (repeat' split) <;>
      simp_all [frameNavigateEffect_eq, toDone_eq, dispose_eq,
        rl_loadStatePending, wc_loadStatePending, wc_barrierResolved]
  · exact Or.inr (applyEvent_resolved_mono i st ev h)

theorem step_navWaitInv (i : Nat) (st : BState) (ev : Event) (h : NavWaitInv st) :
    NavWaitInv (step i st ev) := by
  by_cases hd : ∀ o, st.phase ≠ Phase.done o
  · rcases h with h | h | ⟨o, ho⟩
    · rw [step_of_not_done i st ev hd]
      rcases applyEvent_lp_or_resolved i st ev (Or.inl h) with h' | h'
      · exact Or.inl (by rw [aw_loadStatePending]; exact h')
      · exact Or.inr (Or.inl (by rw [aw_barrierResolved]; exact h'))
    · rw [step_of_not_done i st ev hd]
      rcases applyEvent_lp_or_resolved i st ev (Or.inr h) with h' | h'
      · exact Or.inl (by rw [aw_loadStatePending]; exact h')
      · exact Or.inr (Or.inl (by rw [aw_barrierResolved]; exact h'))
    · exact absurd ho (hd o)
  · push_neg at hd
    obtain ⟨o, ho⟩ := hd
    rw [step_of_done i st ev o ho]
    exact h

theorem runFrom_navWaitInv (evs : List Event) :
    ∀ (i : Nat) (st : BState), NavWaitInv st → NavWaitInv (runFrom i st evs) := by
  induction evs with
  | nil => intro i st h; exact h
  | cons ev rest ih =>
      intro i st h
      exact ih (i + 1) (step i st ev) (step_navWaitInv i st ev h)

theorem step_loadStateDone_resolves (i : Nat) (st : BState)
    (hd : ∀ o, st.phase ≠ Phase.done o)
    (h : st.loadStatePending = true ∨ st.barrierResolved = true) :
    (step i st Event.loadStateDone).barrierResolved = true := by
  rw [step_of_not_done i st Event.loadStateDone hd, aw_barrierResolved]
  rcases h with h | h
  · simp only [applyEvent, h]
    simp [wc_barrierResolved]
  · exact applyEvent_resolved_mono i st Event.loadStateDone h

theorem step_navigate_top (i : Nat) (st : BState) (hsub : st.subsFrameNav = true)
    (hnd : ∀ o, st.phase ≠ Phase.done o) :
    (step i st (Event.navigate false)).subsRequest = false ∧
    (step i st (Event.navigate false)).subsFrameNav = false ∧
    (step i st (Event.navigate false)).timer ≠ TimerState.pending ∧
    (step i st (Event.navigate false)).loadStatePending = true ∧
    (step i st (Event.navigate false)).frameNavigated = true := by
  rw [step_of_not_done i st (Event.navigate false) hnd]
  have happ :
      applyEvent i st (Event.navigate false) = frameNavigateEffect st := by
    simp [applyEvent, hsub]
  rw [happ, aw_subsRequest, aw_subsFrameNav, aw_timer, aw_loadStatePending, aw_frameNavigated,
    frameNavigateEffect_eq]
  refine ⟨rfl, rfl, ?_, rfl, rfl⟩
  by_cases ht : st.timer = TimerState.pending <;> simp_all

theorem run_snoc (pre : List Event) (e : Event) :
    run (pre ++ [e]) = step pre.length (run pre) e := by
  unfold run
  rw [runFrom_append]
  simp [runFrom]

theorem run_cons_append (pre : List Event) (e : Event) (mid : List Event) :
    run (pre ++ e :: mid) = runFrom (pre.length + 1) (step pre.length (run pre) e) mid := by
  have hsplit : pre ++ e :: mid = (pre ++ [e]) ++ mid := by simp
  rw [hsplit]
  unfold run
  rw [runFrom_append, runFrom_append]
  simp [runFrom]

theorem run_not_done_of_subs (pre : List Event) (h : (run pre).subsFrameNav = true) :
    ∀ o, (run pre).phase ≠ Phase.done o := by
  intro o ho
  obtain ⟨h1, h2, h3, h4, h5, h6, h7, h8⟩ := run_disposalInv pre
  rw [h2, h8 o ho] at h
  exact absurd h (by decide)

theorem step_reqStart_noop (i : Nat) (st : BState) (r : Nat) (hAw : AwaitOk st)
    (hsubs : st.subsRequest = false) : step i st (Event.reqStart r) = st := by
  by_cases hd : ∀ o, st.phase ≠ Phase.done o
  · rw [step_of_not_done i st (Event.reqStart r) hd]
    have happ : applyEvent i st (Event.reqStart r) = st := by
      simp [applyEvent, hsubs]
    rw [happ, advanceWait_eq_self st hAw]
  · push_neg at hd
    obtain ⟨o, ho⟩ := hd
    exact step_of_done i st (Event.reqStart r) o ho

/-- Claim C5 (amended): whenever a top-frame `framenavigated` event fires
while the listeners are still subscribed, the deadline timer is no longer
pending afterwards, the load-state wait is started, the navigated flag is
set, and request tracking stops — every later `reqStart` leaves the state
unchanged; completion of `waitForLoadState('load')` then resolves the
barrier regardless of how many tracked requests are still pending (provided
the call has not already exited); and a child-frame navigation (a frame
with a parent) is a complete no-op.  (The original claim's "the Barrier
resolves only once wait-for-load-state completes" is false when the barrier
had already resolved before the navigation; see the counterexample.) -/
theorem frameNavigate_cancels_deadline (pre mid : List Event) (r : Nat)
    (hsub : (run pre).subsFrameNav = true) :
    run (pre ++ [Event.navigate true]) = run pre ∧
    ((run (pre ++ [Event.navigate false])).timer ≠ TimerState.pending ∧
     (run (pre ++ [Event.navigate false])).loadStatePending = true ∧
     (run (pre ++ [Event.navigate false])).frameNavigated = true) ∧
    (run (pre ++ Event.navigate false :: mid)).subsRequest = false ∧
    run ((pre ++ Event.navigate false :: mid) ++ [Event.reqStart r]) =
      run (pre ++ Event.navigate false :: mid) ∧
    ((∀ o, (run (pre ++ Event.navigate false :: mid)).phase ≠ Phase.done o) →
      (run ((pre ++ Event.navigate false :: mid) ++ [Event.loadStateDone])).barrierResolved
        = true) := by
  have hnd : ∀ o, (run pre).phase ≠ Phase.done o := run_not_done_of_subs pre hsub
  have hnav := step_navigate_top pre.length (run pre) hsub hnd
  have hXsubs : (run (pre ++ Event.navigate false :: mid)).subsRequest = false := by
    rw [run_cons_append]
    exact runFrom_subs_false mid (pre.length + 1) _ hnav.1
  refine ⟨?_, ?_, hXsubs, ?_, ?_⟩
  · rw [run_snoc]
    by_cases hd : ∀ o, (run pre).phase ≠ Phase.done o
    · rw [step_of_not_done _ _ _ hd]
      have happ : applyEvent pre.length (run pre) (Event.navigate true) = run pre := by
        simp [applyEvent]
      rw [happ, advanceWait_eq_self _ (run_awaitOk pre)]
    · push_neg at hd
      obtain ⟨o, ho⟩ := hd
      exact step_of_done _ _ _ o ho
  · rw [run_snoc]
    exact ⟨hnav.2.2.1, hnav.2.2.2.1, hnav.2.2.2.2⟩
  · rw [run_snoc]
    exact step_reqStart_noop _ _ r (run_awaitOk _) hXsubs
  · intro hnotdone
    have hinv : NavWaitInv (run (pre ++ Event.navigate false :: mid)) := by
      rw [run_cons_append]
      exact runFrom_navWaitInv mid (pre.length + 1) _ (Or.inl hnav.2.2.2.1)
    have hlpres :
        (run (pre ++ Event.navigate false :: mid)).loadStatePending = true ∨
        (run (pre ++ Event.navigate false :: mid)).barrierResolved = true := by
      rcases hinv with h | h | ⟨o, ho⟩
      · exact Or.inl h
      · exact Or.inr h
      · exact absurd ho (hnotdone o)
    rw [run_snoc]
    exact step_loadStateDone_resolves _ _ hnotdone hlpres

/-- Claim C5 witness: from the empty history the `framenavigated` listener
is subscribed; a top-frame navigation then stops the timer and starts the
load-state wait, whose completion resolves the barrier, a child-frame
navigation is a no-op, and a request started after the navigation is not
tracked. -/
theorem frameNavigate_cancels_deadline_witness :
    run [Event.navigate true] = run ([] : List Event) ∧
    (run [Event.navigate false]).timer ≠ TimerState.pending ∧
    (run [Event.navigate false]).loadStatePending = true ∧
    run [Event.navigate false, Event.reqStart 7] = run [Event.navigate false] ∧
    (run [Event.navigate false, Event.loadStateDone]).barrierResolved = true := by
  have h := frameNavigate_cancels_deadline [] [] 7 (by decide)
  refine ⟨h.1, h.2.1.1, h.2.1.2.1, h.2.2.2.1, h.2.2.2.2 ?_⟩
  intro o ho
  have hrun : (run ([] ++ Event.navigate false :: ([] : List Event))).phase = Phase.running := by
    decide
  rw [hrun] at ho
  exact Phase.noConfusion ho

/-- The schedule refuting claim C5 as stated: the trigger returns with no
requests at step 0, which resolves the barrier immediately; a top-frame
navigation then fires at step 1 — while the `framenavigated` listener is
still subscribed, since the settle delay has not elapsed — and
`waitForLoadState('load')` only completes at step 2.  The barrier resolved
at step 0, before the navigation and before the load-state wait completed,
so "the Barrier resolves only once wait-for-load-state('load') completes"
is false for the code. -/
theorem barrier_resolves_before_loadState_counterexample :
    (run [Event.triggerOk]).barrierResolved = true ∧
    (run [Event.triggerOk]).subsFrameNav = true ∧
    (run [Event.triggerOk, Event.navigate false]).frameNavigated = true ∧
    (run [Event.triggerOk, Event.navigate false, Event.loadStateDone,
          Event.settleDone]).phase = Phase.done Outcome.value ∧
    (run [Event.triggerOk, Event.navigate false, Event.loadStateDone,
          Event.settleDone]).resolveStep = some 0 := by
  decide

/-! ### Claim C3: error suppression and propagation -/

theorem applyEvent_phase_await (i : Nat) (st : BState) (ev : Event) (b : Bool)
    (h : st.phase = Phase.awaitBarrier b) :
    (applyEvent i st ev).phase = Phase.awaitBarrier b := by
  cases ev <;> simp only [applyEvent, h] <;> (repeat' split) <;>
    simp_all [frameNavigateEffect_eq, toDone_eq, dispose_eq, rl_phase, wc_phase]

theorem applyEvent_phase_settling (i : Nat) (st : BState) (ev : Event) (b : Bool)
    (h : st.phase = Phase.settling b) :
    (applyEvent i st ev).phase = Phase.settling b ∨
    (applyEvent i st ev).phase = Phase.done (if b then Outcome.value else Outcome.noValue) := by
  cases ev <;> simp only [applyEvent, h] <;> (repeat' split) <;>
    simp_all [frameNavigateEffect_eq, toDone_eq, dispose_eq, rl_phase, wc_phase]

theorem applyEvent_phase_grace (i : Nat) (st : BState) (ev : Event) (e : JsValue)
    (h : st.phase = Phase.grace e) :
    (applyEvent i st ev).phase = Phase.grace e ∨
    (st.frameNavigated = true ∧ (applyEvent i st ev).phase = Phase.awaitBarrier false) ∨
    (st.frameNavigated = false ∧
      (applyEvent i st ev).phase = Phase.done (Outcome.thrown e) ∧
      (applyEvent i st ev).frameNavigated = false) := by
  cases ev <;> simp only [applyEvent, h] <;> (repeat' split) <;>
    simp_all [frameNavigateEffect_eq, toDone_eq, dispose_eq, rl_phase, wc_phase,
      rl_frameNavigated, wc_frameNavigated]

theorem aw_phase_eq (st : BState) :
    (advanceWait st).phase = st.phase ∨
    (∃ b, st.phase = Phase.awaitBarrier b ∧ (advanceWait st).phase = Phase.settling b) := by
  unfold advanceWait
  cases hph : st.phase <;> simp only [hph]
  case awaitBarrier b =>
    by_cases hres : st.barrierResolved = true <;> simp_all
  all_goals simp

/-- The suppressed-error continuation: once the call is waiting out the
barrier or the settle delay with no value, the only exit is a successful
return of `undefined`. -/
def SuppressOk (st : BState) : Prop :=
  st.phase = Phase.awaitBarrier false ∨ st.phase = Phase.settling false ∨
  st.phase = Phase.done Outcome.noValue

theorem phase_not_done_of_await (st : BState) (b : Bool) (h : st.phase = Phase.awaitBarrier b) :
    ∀ o, st.phase ≠ Phase.done o := by
  intro o ho
  rw [h] at ho
  exact Phase.noConfusion ho

theorem phase_not_done_of_settling (st : BState) (b : Bool) (h : st.phase = Phase.settling b) :
    ∀ o, st.phase ≠ Phase.done o := by
  intro o ho
  rw [h] at ho
  exact Phase.noConfusion ho

theorem phase_not_done_of_grace (st : BState) (e : JsValue) (h : st.phase = Phase.grace e) :
    ∀ o, st.phase ≠ Phase.done o := by
  intro o ho
  rw [h] at ho
  exact Phase.noConfusion ho

theorem phase_not_done_of_running (st : BState) (h : st.phase = Phase.running) :
    ∀ o, st.phase ≠ Phase.done o := by
  intro o ho
  rw [h] at ho
  exact Phase.noConfusion ho

theorem step_suppressOk (i : Nat) (st : BState) (ev : Event) (h : SuppressOk st) :
    SuppressOk (step i st ev) := by
  rcases h with h | h | h
  · rw [step_of_not_done i st ev (phase_not_done_of_await st false h)]
    have hph := applyEvent_phase_await i st ev false h
    rcases aw_phase_eq (applyEvent i st ev) with h2 | ⟨b, hb1, hb2⟩
    · exact Or.inl (h2.trans hph)
    · rw [hph] at hb1
      cases hb1
      exact Or.inr (Or.inl hb2)
  · rw [step_of_not_done i st ev (phase_not_done_of_settling st false h)]
    rcases applyEvent_phase_settling i st ev false h with hph | hph
    · rcases aw_phase_eq (applyEvent i st ev) with h2 | ⟨b, hb1, hb2⟩
      · exact Or.inr (Or.inl (h2.trans hph))
      · rw [hph] at hb1
        exact absurd hb1 (by intro hx; exact Phase.noConfusion hx)
    · rcases aw_phase_eq (applyEvent i st ev) with h2 | ⟨b, hb1, hb2⟩
      · exact Or.inr (Or.inr (by rw [h2, hph]; rfl))
      · rw [hph] at hb1
        exact absurd hb1 (by intro hx; exact Phase.noConfusion hx)
  · rw [step_of_done i st ev Outcome.noValue h]
    exact Or.inr (Or.inr h)

/-- States reachable after a navigation-race error was caught: still in the
grace sleep, already continuing with no value, or already thrown with no
navigation ever observed. -/
def RInv (st : BState) : Prop :=
  SuppressOk st ∨ (∃ e', st.phase = Phase.grace e') ∨
  (st.frameNavigated = false ∧ ∃ e', st.phase = Phase.done (Outcome.thrown e'))

theorem step_RInv (i : Nat) (st : BState) (ev : Event) (h : RInv st) : RInv (step i st ev) := by
  rcases h with h | ⟨e', h⟩ | ⟨hfn, e', h⟩
  · exact Or.inl (step_suppressOk i st ev h)
  · rw [step_of_not_done i st ev (phase_not_done_of_grace st e' h)]
    rcases applyEvent_phase_grace i st ev e' h with hph | ⟨hfnT, hph⟩ | ⟨hfnF, hph, hfn2⟩
    · rcases aw_phase_eq (applyEvent i st ev) with h2 | ⟨b, hb1, hb2⟩
      · exact Or.inr (Or.inl ⟨e', h2.trans hph⟩)
      · rw [hph] at hb1
        exact absurd hb1 (by intro hx; exact Phase.noConfusion hx)
    · rcases aw_phase_eq (applyEvent i st ev) with h2 | ⟨b, hb1, hb2⟩
      · exact Or.inl (Or.inl (h2.trans hph))
      · rw [hph] at hb1
        cases hb1
        exact Or.inl (Or.inr (Or.inl hb2))
    · rcases aw_phase_eq (applyEvent i st ev) with h2 | ⟨b, hb1, hb2⟩
      · refine Or.inr (Or.inr ⟨?_, e', h2.trans hph⟩)
        rw [aw_frameNavigated]
        exact hfn2
      · rw [hph] at hb1
        exact absurd hb1 (by intro hx; exact Phase.noConfusion hx)
  · rw [step_of_done i st ev (Outcome.thrown e') h]
    exact Or.inr (Or.inr ⟨hfn, e', h⟩)

theorem runFrom_RInv (evs : List Event) :
    ∀ (i : Nat) (st : BState), RInv st → RInv (runFrom i st evs) := by
  induction evs with
  | nil => intro i st h; exact h
  | cons ev rest ih =>
      intro i st h
      exact ih (i + 1) (step i st ev) (step_RInv i st ev h)

/-- Once the navigated flag is up and the call is in the grace sleep or
further along the no-value continuation, the only exit is `undefined`. -/
def TInv (st : BState) : Prop :=
  SuppressOk st ∨ (st.frameNavigated = true ∧ ∃ e', st.phase = Phase.grace e')

theorem step_TInv (i : Nat) (st : BState) (ev : Event) (h : TInv st) : TInv (step i st ev) := by
  rcases h with h | ⟨hfn, e', h⟩
  · exact Or.inl (step_suppressOk i st ev h)
  · rw [step_of_not_done i st ev (phase_not_done_of_grace st e' h)]
    rcases applyEvent_phase_grace i st ev e' h with hph | ⟨hfnT, hph⟩ | ⟨hfnF, hph, hfn2⟩
    · rcases aw_phase_eq (applyEvent i st ev) with h2 | ⟨b, hb1, hb2⟩
      · refine Or.inr ⟨?_, e', h2.trans hph⟩
        rw [aw_frameNavigated]
        exact applyEvent_fn_mono i st ev hfn
      · rw [hph] at hb1
        exact absurd hb1 (by intro hx; exact Phase.noConfusion hx)
    · rcases aw_phase_eq (applyEvent i st ev) with h2 | ⟨b, hb1, hb2⟩
      · exact Or.inl (Or.inl (h2.trans hph))
      · rw [hph] at hb1
        cases hb1
        exact Or.inl (Or.inr (Or.inl hb2))
    · rw [hfnF] at hfn
      exact absurd hfn (by decide)

theorem runFrom_TInv (evs : List Event) :
    ∀ (i : Nat) (st : BState), TInv st → TInv (runFrom i st evs) := by
  induction evs with
  | nil => intro i st h; exact h
  | cons ev rest ih =>
      intro i st h
      exact ih (i + 1) (step i st ev) (step_TInv i st ev h)

theorem step_triggerErr_nav (i : Nat) (st : BState) (e : JsValue)
    (hrun : st.phase = Phase.running) (hnav : isNavigationError e = true) :
    RInv (step i st (Event.triggerErr e)) ∧
    (st.frameNavigated = false →
      (step i st (Event.triggerErr e)).phase = Phase.grace e ∧
      (step i st (Event.triggerErr e)).frameNavigated = false) := by
  rw [step_of_not_done i st (Event.triggerErr e) (phase_not_done_of_running st hrun)]
  by_cases hfn : st.frameNavigated = true
  · have happ : applyEvent i st (Event.triggerErr e) = { st with phase := Phase.awaitBarrier false } := by
      simp [applyEvent, hrun, hnav, hfn]
    rw [happ]
    constructor
    · rcases aw_phase_eq { st with phase := Phase.awaitBarrier false } with h2 | ⟨b, hb1, hb2⟩
      · exact Or.inl (Or.inl h2)
      · simp only at hb1
        cases hb1
        exact Or.inl (Or.inr (Or.inl hb2))
    · intro hfnF
      rw [hfnF] at hfn
      exact absurd hfn (by decide)
  · have hfnF : st.frameNavigated = false := by
      cases hx : st.frameNavigated
      · rfl
      · exact absurd hx hfn
    have happ : applyEvent i st (Event.triggerErr e) = { st with phase := Phase.grace e } := by
      simp [applyEvent, hrun, hnav, hfnF]
    rw [happ]
    have haw : advanceWait { st with phase := Phase.grace e } = { st with phase := Phase.grace e } := by
      unfold advanceWait
      simp
    rw [haw]
    refine ⟨Or.inr (Or.inl ⟨e, rfl⟩), fun _ => ⟨rfl, hfnF⟩⟩

theorem step_triggerErr_other (i : Nat) (st : BState) (e : JsValue)
    (hrun : st.phase = Phase.running) (hnav : isNavigationError e = false) :
    (step i st (Event.triggerErr e)).phase = Phase.done (Outcome.thrown e) ∧
    (step i st (Event.triggerErr e)).subsRequest = false ∧
    (step i st (Event.triggerErr e)).subsReqFailed = false ∧
    (step i st (Event.triggerErr e)).subsFrameNav = false := by
  rw [step_of_not_done i st (Event.triggerErr e) (phase_not_done_of_running st hrun)]
  have happ : applyEvent i st (Event.triggerErr e) = toDone (Outcome.thrown e) st := by
    simp [applyEvent, hrun, hnav]
  rw [happ, toDone_eq]
  have haw : ∀ st' : BState, st'.phase = Phase.done (Outcome.thrown e) → advanceWait st' = st' := by
    intro st' hph
    unfold advanceWait
    rw [hph]
  rw [haw _ (by simp)]
  simp

theorem run_append (l1 l2 : List Event) :
    run (l1 ++ l2) = runFrom l1.length (run l1) l2 := by
  unfold run
  rw [runFrom_append]
  simp

theorem step_fn_back (i : Nat) (st : BState) (ev : Event)
    (h : (step i st ev).frameNavigated = false) : st.frameNavigated = false := by
  cases hfn : st.frameNavigated
  · rfl
  · rw [step_fn_mono i st ev hfn] at h
    exact absurd h (by decide)

theorem step_grace (i : Nat) (st : BState) (ev : Event) (e : JsValue)
    (hph : st.phase = Phase.grace e ∨ st.phase = Phase.done (Outcome.thrown e))
    (hfn : (step i st ev).frameNavigated = false) :
    (step i st ev).phase = Phase.grace e ∨
    (step i st ev).phase = Phase.done (Outcome.thrown e) := by
  rcases hph with h | h
  · rw [step_of_not_done i st ev (phase_not_done_of_grace st e h)] at hfn ⊢
    rcases applyEvent_phase_grace i st ev e h with hph | ⟨hfnT, hph⟩ | ⟨hfnF, hph, hfn2⟩
    · rcases aw_phase_eq (applyEvent i st ev) with h2 | ⟨b, hb1, hb2⟩
      · exact Or.inl (h2.trans hph)
      · rw [hph] at hb1
        exact absurd hb1 (by intro hx; exact Phase.noConfusion hx)
    · rw [aw_frameNavigated, applyEvent_fn_mono i st ev hfnT] at hfn
      exact absurd hfn (by decide)
    · rcases aw_phase_eq (applyEvent i st ev) with h2 | ⟨b, hb1, hb2⟩
      · exact Or.inr (h2.trans hph)
      · rw [hph] at hb1
        exact absurd hb1 (by intro hx; exact Phase.noConfusion hx)
  · rw [step_of_done i st ev (Outcome.thrown e) h]
    exact Or.inr h

theorem runFrom_grace (mid : List Event) :
    ∀ (i : Nat) (st : BState) (e : JsValue),
      (st.phase = Phase.grace e ∨ st.phase = Phase.done (Outcome.thrown e)) →
      (runFrom i st mid).frameNavigated = false →
      ((runFrom i st mid).phase = Phase.grace e ∨
       (runFrom i st mid).phase = Phase.done (Outcome.thrown e)) := by
  induction mid with
  | nil => intro i st e h _; exact h
  | cons ev rest ih =>
      intro i st e h hfn
      have hfnstep : (step i st ev).frameNavigated = false :=
        runFrom_fn_back rest (i + 1) (step i st ev) hfn
      exact ih (i + 1) (step i st ev) e (step_grace i st ev e h hfnstep) hfn

theorem step_graceExpire_noNav (i : Nat) (st : BState) (e : JsValue)
    (hph : st.phase = Phase.grace e) (hfn : st.frameNavigated = false) :
    (step i st Event.graceExpire).phase = Phase.done (Outcome.thrown e) ∧
    (step i st Event.graceExpire).subsRequest = false := by
  rw [step_of_not_done i st Event.graceExpire (phase_not_done_of_grace st e hph)]
  have happ : applyEvent i st Event.graceExpire = toDone (Outcome.thrown e) st := by
    simp [applyEvent, hph, hfn]
  rw [happ, toDone_eq]
  have haw : ∀ st' : BState, st'.phase = Phase.done (Outcome.thrown e) → advanceWait st' = st' := by
    intro st' hph'
    unfold advanceWait
    rw [hph']
  rw [haw _ (by simp)]
  simp

/-- Claim C3 (amended): if the trigger raises an error classified as a
navigation race by the filter and a top-frame navigation has been observed
by the end of the grace window — i.e. the `frameNavigated` flag is set,
which happens exactly when a top-frame navigation fires while the listeners
are still subscribed (in particular before the 10000 ms deadline fired) —
then every exit of the call returns success with no value; an error the
filter rejects propagates immediately with the listeners disposed; and a
navigation-race error with no navigation observed inside the grace window
propagates when the grace sleep expires, also after listener disposal.
(The original claim, for a navigation event firing in the window regardless
of listener state, is refuted by the counterexample where the deadline
fires first.) -/
theorem navigationError_suppression :
    (∀ (pre : List Event) (e : JsValue) (mid post : List Event) (o : Outcome),
        (run pre).phase = Phase.running →
        isNavigationError e = true →
        (run (pre ++ Event.triggerErr e :: mid)).frameNavigated = true →
        (run ((pre ++ Event.triggerErr e :: mid) ++ post)).phase = Phase.done o →
        o = Outcome.noValue) ∧
    (∀ (pre : List Event) (e : JsValue),
        (run pre).phase = Phase.running →
        isNavigationError e = false →
        (run (pre ++ [Event.triggerErr e])).phase = Phase.done (Outcome.thrown e) ∧
        (run (pre ++ [Event.triggerErr e])).subsRequest = false ∧
        (run (pre ++ [Event.triggerErr e])).subsReqFailed = false ∧
        (run (pre ++ [Event.triggerErr e])).subsFrameNav = false) ∧
    (∀ (pre : List Event) (e : JsValue) (mid : List Event),
        (run pre).phase = Phase.running →
        isNavigationError e = true →
        (run (pre ++ Event.triggerErr e :: mid)).frameNavigated = false →
        (run ((pre ++ Event.triggerErr e :: mid) ++ [Event.graceExpire])).phase =
          Phase.done (Outcome.thrown e) ∧
        (run ((pre ++ Event.triggerErr e :: mid) ++ [Event.graceExpire])).subsRequest = false) := by
  refine ⟨?_, ?_, ?_⟩
  · intro pre e mid post o hrun hnav hfn hdone
    have hentry : RInv (step pre.length (run pre) (Event.triggerErr e)) :=
      (step_triggerErr_nav pre.length (run pre) e hrun hnav).1
    have hRX : RInv (run (pre ++ Event.triggerErr e :: mid)) := by
      rw [run_cons_append]
      exact runFrom_RInv mid (pre.length + 1) _ hentry
    have hTX : TInv (run (pre ++ Event.triggerErr e :: mid)) := by
      rcases hRX with h | ⟨e', h⟩ | ⟨hf, e', h⟩
      · exact Or.inl h
      · exact Or.inr ⟨hfn, e', h⟩
      · rw [hf] at hfn
        exact absurd hfn (by decide)
    have hTfin : TInv (run ((pre ++ Event.triggerErr e :: mid) ++ post)) := by
      rw [run_append]
      exact runFrom_TInv post _ _ hTX
    rcases hTfin with hfin | ⟨_, e', hfin⟩
    · rcases hfin with hfin | hfin | hfin
      · rw [hdone] at hfin
        exact absurd hfin (by intro hx; exact Phase.noConfusion hx)
      · rw [hdone] at hfin
        exact absurd hfin (by intro hx; exact Phase.noConfusion hx)
      · rw [hdone] at hfin
        cases hfin
        rfl
    · rw [hdone] at hfin
      exact absurd hfin (by intro hx; exact Phase.noConfusion hx)
  · intro pre e hrun hnav
    rw [run_snoc]
    exact step_triggerErr_other pre.length (run pre) e hrun hnav
  · intro pre e mid hrun hnav hfn
    have hfnentry : (step pre.length (run pre) (Event.triggerErr e)).frameNavigated = false := by
      have hrw : run (pre ++ Event.triggerErr e :: mid) =
          runFrom (pre.length + 1) (step pre.length (run pre) (Event.triggerErr e)) mid :=
        run_cons_append pre (Event.triggerErr e) mid
      rw [hrw] at hfn
      exact runFrom_fn_back mid (pre.length + 1) _ hfn
    have hfnpre : (run pre).frameNavigated = false :=
      step_fn_back pre.length (run pre) (Event.triggerErr e) hfnentry
    have hentry := (step_triggerErr_nav pre.length (run pre) e hrun hnav).2 hfnpre
    have hXgrace :
        (run (pre ++ Event.triggerErr e :: mid)).phase = Phase.grace e ∨
        (run (pre ++ Event.triggerErr e :: mid)).phase = Phase.done (Outcome.thrown e) := by
      rw [run_cons_append]
      rw [run_cons_append] at hfn
      exact runFrom_grace mid (pre.length + 1) _ e (Or.inl hentry.1) hfn
    rcases hXgrace with hX | hX
    · rw [run_snoc]
      exact step_graceExpire_noNav _ _ e hX hfn
    · have hid : run ((pre ++ Event.triggerErr e :: mid) ++ [Event.graceExpire]) =
          run (pre ++ Event.triggerErr e :: mid) := by
        rw [run_snoc]
        exact step_of_done _ _ _ (Outcome.thrown e) hX
      rw [hid]
      obtain ⟨h1, h2, h3, h4, h5, h6, h7, h8⟩ := run_disposalInv (pre ++ Event.triggerErr e :: mid)
      exact ⟨hX, h8 (Outcome.thrown e) hX⟩

/-- A concrete navigation-race error, matching the first fixed substring of
the filter up to case. -/
def navErrMsg : JsValue :=
  JsValue.error ("Execution context was destroyed".toList)

/-- Claim C3 witness: concrete schedules exercising all three branches —
suppression (trigger throws the navigation-race error, a top-frame
navigation arrives inside the grace window, the call ends with no value),
immediate propagation of a non-navigation error, and propagation of the
navigation-race error when no navigation is observed in the window. -/
theorem navigationError_suppression_witness :
    (run (([] ++ Event.triggerErr navErrMsg :: [Event.navigate false]) ++
        [Event.graceExpire, Event.loadStateDone, Event.settleDone])).phase =
      Phase.done Outcome.noValue ∧
    Outcome.noValue = Outcome.noValue ∧
    (run ([] ++ [Event.triggerErr (JsValue.error ("boom".toList))])).phase =
      Phase.done (Outcome.thrown (JsValue.error ("boom".toList))) ∧
    (run (([] ++ Event.triggerErr navErrMsg :: []) ++ [Event.graceExpire])).phase =
      Phase.done (Outcome.thrown navErrMsg) :=
  ⟨by decide,
   navigationError_suppression.1 [] navErrMsg [Event.navigate false]
     [Event.graceExpire, Event.loadStateDone, Event.settleDone] Outcome.noValue
     (by decide) (by decide) (by decide) (by decide),
   (navigationError_suppression.2.1 [] (JsValue.error ("boom".toList))
     (by decide) (by decide)).1,
   (navigationError_suppression.2.2 [] navErrMsg [] (by decide) (by decide) (by decide)).1⟩

/-- The schedule refuting claim C3 as stated: the 10000 ms deadline fires
while the trigger is still running (disposing the listeners), the trigger
then throws a navigation-race error, a top-frame navigation fires within
the grace window (before `graceExpire`), yet the error propagates, because
the disposed `framenavigated` listener never sets the flag. -/
def c3Scenario : List Event :=
  [Event.timerFire, Event.triggerErr navErrMsg, Event.navigate false, Event.graceExpire]

/-- Claim C3 counterexample: in `c3Scenario` the error is a navigation race
and the navigation event is delivered before the grace window expires, but
the call still exits by throwing the error instead of returning success
with no value. -/
theorem navigationError_suppression_counterexample :
    isNavigationError navErrMsg = true ∧
    c3Scenario[2]? = some (Event.navigate false) ∧
    c3Scenario[3]? = some Event.graceExpire ∧
    (run c3Scenario).phase = Phase.done (Outcome.thrown navErrMsg) := by
  decide
